import Mathlib

/-!
# Points-to rule expressions

A shallow embedding of `src/PointsTo/RuleExpressions.h` (LLVMSlicer): the
rule-expression grammar, the `RuleCode` canonical form and its expansion
`getRulesOfCommand`, the per-value translation `toRuleCode` and the call /
return propagation (`collectCallRuleCodes`, `collectReturnRuleCodes`).

Conventions of the embedding.

* A `const llvm::Value*` is an address, a natural number; `0` is the null
  pointer.
* The C++ expression templates (`VARIABLE<M>`, `REFERENCE<S>`, ...) are one
  inductive type `ExprSort`: the constructor tree is the C++ type, the stored
  locations are the C++ value.
* `RuleCode` has ten converting constructors, selected by overload resolution
  on the static type of the expression. `RuleCode.construct` is that overload
  resolution; `none` means that no constructor is viable, so that the C++
  program is rejected by the compiler.
* An output iterator is modelled by the list of rules written to it, together
  with a flag telling whether an `assert` stopped the run (`Emission`).
* Functions of the host representation that the header only calls
  (`elimConstExpr`, `hasExtraReference`, `isMemoryAllocation`, ...) are the
  fields of `Env`.
-/

namespace PointsTo

/-- The type `RuleCode::MemoryLocation`, a `const llvm::Value*`: an address. -/
abbrev MemoryLocation := Nat

/-- The null pointer, the value of a value-initialised `MemoryLocation`. -/
def nullPtr : MemoryLocation := 0

/-- The expression sorts `VARIABLE`, `ALLOC`, `DEALLOC`, `NULLPTR`, `REFERENCE`,
`DEREFERENCE` and `ASSIGNMENT`, instantiated at `MemLoc = MemoryLocation`. The
four leaves hold `arg`; the unary combinators hold their sub-expression; an
assignment holds `arg1` and `arg2`. -/
inductive ExprSort where
  | VARIABLE (ml : MemoryLocation)
  | ALLOC (ml : MemoryLocation)
  | DEALLOC (ml : MemoryLocation)
  | NULLPTR (ml : MemoryLocation)
  | REFERENCE (sub : ExprSort)
  | DEREFERENCE (sub : ExprSort)
  | ASSIGNMENT (lsub rsub : ExprSort)
  deriving DecidableEq, Repr

/-- The wrapper `RuleExpression<ExprSort>`: it stores one sort. -/
structure RuleExpression where
  sort : ExprSort
  deriving DecidableEq, Repr

namespace RuleExpression

/-- The member `getSort()`. -/
def getSort (e : RuleExpression) : ExprSort := e.sort

/-- The private member `makeAssignment(r)`: a template over every `RSort`. -/
def makeAssignment (l r : RuleExpression) : RuleExpression :=
  ⟨ExprSort.ASSIGNMENT l.sort r.getSort⟩

/-- The member `operator=(r)`; each of its overloads returns
`makeAssignment(r)`. -/
def opAssign (l r : RuleExpression) : RuleExpression := makeAssignment l r

/-- The member `operator&()`. -/
def opRef (e : RuleExpression) : RuleExpression := ⟨ExprSort.REFERENCE e.sort⟩

/-- The member `operator*()`. -/
def opDeref (e : RuleExpression) : RuleExpression := ⟨ExprSort.DEREFERENCE e.sort⟩

end RuleExpression

open RuleExpression

/-- The builder `ruleVar(ml)`. -/
def ruleVar (ml : MemoryLocation) : RuleExpression := ⟨ExprSort.VARIABLE ml⟩

/-- The builder `ruleAllocSite(ml)`. -/
def ruleAllocSite (ml : MemoryLocation) : RuleExpression := ⟨ExprSort.ALLOC ml⟩

/-- The builder `ruleDeallocSite(ml)`. -/
def ruleDeallocSite (ml : MemoryLocation) : RuleExpression := ⟨ExprSort.DEALLOC ml⟩

/-- The builder `ruleNull(ml)`. -/
def ruleNull (ml : MemoryLocation) : RuleExpression := ⟨ExprSort.NULLPTR ml⟩

/-- The enumeration `RuleCodeType`. -/
inductive RuleCodeType where
  | RCT_UNKNOWN
  | RCT_VAR_ASGN_ALLOC
  | RCT_VAR_ASGN_NULL
  | RCT_VAR_ASGN_VAR
  | RCT_VAR_ASGN_REF_VAR
  | RCT_VAR_ASGN_DREF_VAR
  | RCT_DREF_VAR_ASGN_NULL
  | RCT_DREF_VAR_ASGN_VAR
  | RCT_DREF_VAR_ASGN_REF_VAR
  | RCT_DREF_VAR_ASGN_DREF_VAR
  | RCT_DEALLOC
  deriving DecidableEq, Repr

open RuleCodeType

/-- The struct `RuleCode`: a type tag and two locations. -/
structure RuleCode where
  type : RuleCodeType
  lvalue : MemoryLocation
  rvalue : MemoryLocation
  deriving DecidableEq, Repr

namespace RuleCode

/-- The member `getType()`. -/
def getType (rc : RuleCode) : RuleCodeType := rc.type

/-- The member `getLvalue()`. -/
def getLvalue (rc : RuleCode) : MemoryLocation := rc.lvalue

/-- The member `getRvalue()`. -/
def getRvalue (rc : RuleCode) : MemoryLocation := rc.rvalue

/-- The member `getValue()`, which returns `getLvalue()`. -/
def getValue (rc : RuleCode) : MemoryLocation := rc.getLvalue

/-- The ten converting constructors of `RuleCode`, in the order of the header.
Each row is one constructor: its parameter type is the pattern, its member
initialisers are the result. A sort that matches no row has no viable
constructor (`none`). The constructor for `DEALLOC` value-initialises
`rvalue`. -/
def construct : ExprSort → Option RuleCode
  | .ASSIGNMENT (.VARIABLE l) (.ALLOC r) => some ⟨RCT_VAR_ASGN_ALLOC, l, r⟩
  | .ASSIGNMENT (.VARIABLE l) (.NULLPTR r) => some ⟨RCT_VAR_ASGN_NULL, l, r⟩
  | .ASSIGNMENT (.VARIABLE l) (.VARIABLE r) => some ⟨RCT_VAR_ASGN_VAR, l, r⟩
  | .ASSIGNMENT (.VARIABLE l) (.REFERENCE (.VARIABLE r)) =>
      some ⟨RCT_VAR_ASGN_REF_VAR, l, r⟩
  | .ASSIGNMENT (.VARIABLE l) (.DEREFERENCE (.VARIABLE r)) =>
      some ⟨RCT_VAR_ASGN_DREF_VAR, l, r⟩
  | .ASSIGNMENT (.DEREFERENCE (.VARIABLE l)) (.NULLPTR r) =>
      some ⟨RCT_DREF_VAR_ASGN_NULL, l, r⟩
  | .ASSIGNMENT (.DEREFERENCE (.VARIABLE l)) (.VARIABLE r) =>
      some ⟨RCT_DREF_VAR_ASGN_VAR, l, r⟩
  | .ASSIGNMENT (.DEREFERENCE (.VARIABLE l)) (.REFERENCE (.VARIABLE r)) =>
      some ⟨RCT_DREF_VAR_ASGN_REF_VAR, l, r⟩
  | .ASSIGNMENT (.DEREFERENCE (.VARIABLE l)) (.DEREFERENCE (.VARIABLE r)) =>
      some ⟨RCT_DREF_VAR_ASGN_DREF_VAR, l, r⟩
  | .DEALLOC l => some ⟨RCT_DEALLOC, l, nullPtr⟩
  | _ => none

end RuleCode

/-- The function `ruleCode(E)`, which returns `RuleCode(E.getSort())`. -/
def ruleCode (E : RuleExpression) : Option RuleCode :=
  RuleCode.construct E.getSort

/-- The four leaf builders, as a kind. -/
inductive LeafKind where
  | variable
  | allocSite
  | deallocSite
  | nullSite
  deriving DecidableEq, Repr

/-- The leaf builder of a kind. -/
def LeafKind.build : LeafKind → MemoryLocation → RuleExpression
  | .variable => ruleVar
  | .allocSite => ruleAllocSite
  | .deallocSite => ruleDeallocSite
  | .nullSite => ruleNull

/-- The two unary combinators, as a kind. -/
inductive WrapKind where
  | reference
  | dereference
  deriving DecidableEq, Repr

/-- The unary operator of a kind. -/
def WrapKind.apply : WrapKind → RuleExpression → RuleExpression
  | .reference => opRef
  | .dereference => opDeref

/-! ## The host representation -/

/-- A pointer to a type of the host representation, `llvm::Type*`. -/
abbrev TypeRef := Nat

/-- The functions that the header calls and does not define: the helpers of
`Languages/LLVM.h`, the LLVM predicates and constructors, and
`detail::argPassRuleCode`, which the header only declares. Each field has the
argument and result of the call it stands for. -/
structure Env where
  /-- The helper `elimConstExpr(value)`. -/
  elimConstExpr : MemoryLocation → MemoryLocation
  /-- The helper `hasExtraReference(value)`. -/
  hasExtraReference : MemoryLocation → Bool
  /-- The test `isa<ConstantPointerNull>(value)`. -/
  isConstantPointerNull : MemoryLocation → Bool
  /-- The helper `isMemoryAllocation(value)`. -/
  isMemoryAllocation : MemoryLocation → Bool
  /-- The helper `isMemoryDeallocation(value)`. -/
  isMemoryDeallocation : MemoryLocation → Bool
  /-- The helper `isMemoryCopy(value)`. -/
  isMemoryCopy : MemoryLocation → Bool
  /-- The helper `isMemoryMove(value)`. -/
  isMemoryMove : MemoryLocation → Bool
  /-- The helper `isInlineAssembly(call)`. -/
  isInlineAssembly : MemoryLocation → Bool
  /-- The helper `isPointerValue(value)`. -/
  isPointerValue : MemoryLocation → Bool
  /-- The helper `memoryManStuff(function)`. -/
  memoryManStuff : MemoryLocation → Bool
  /-- The helper `getUndefValue(context)`. -/
  getUndefValue : Nat → MemoryLocation
  /-- The constructor `UndefValue::get(type)`. -/
  undefValueGet : TypeRef → MemoryLocation
  /-- The helper `getPointedType(type)`. -/
  getPointedType : TypeRef → TypeRef
  /-- The member `isPointerTy()` of a type. -/
  isPointerTy : TypeRef → Bool
  /-- The function `detail::argPassRuleCode(l, r)`. -/
  argPassRuleCode : MemoryLocation → MemoryLocation → RuleCode

/-- What the header reads of an `llvm::Function`: its address, the addresses of
its formal parameters from `arg_begin()` to `arg_end()`, `isDeclaration()` and
`getReturnType()`. -/
structure Function where
  addr : MemoryLocation
  args : List MemoryLocation
  isDeclaration : Bool
  returnType : TypeRef

/-- What the header reads of an `llvm::CallInst`: its address,
`getCalledValue()`, `getCalledFunction()` (`none` is the null pointer), and the
accessors `getOperand(i)` and `getArgOperand(i)`. -/
structure CallInst where
  addr : MemoryLocation
  calledValue : MemoryLocation
  calledFunction : Option Function
  getOperand : Nat → MemoryLocation
  getArgOperand : Nat → MemoryLocation

/-- What the header reads of an `llvm::ReturnInst`: its address,
`getNumOperands()`, `getOperand(i)` and the address of the function
`getParent()->getParent()`. -/
structure ReturnInst where
  addr : MemoryLocation
  numOperands : Nat
  getOperand : Nat → MemoryLocation
  parentFunction : MemoryLocation

/-- A value as `toRuleCode` sees it: the outcome of its chain of `dyn_cast`
tests, with the operands that the chosen branch reads. The first field is the
address of the value itself. `otherInstruction` is an instruction of a class
the chain does not test and `otherValue` is a value that is neither an
instruction nor a global variable. -/
inductive Value where
  | LoadInst (addr pointerOperand : MemoryLocation)
  | StoreInst (addr valueOperand pointerOperand : MemoryLocation)
  | BitCastInst (addr operand0 : MemoryLocation)
  | GetElementPtrInst (addr pointerOperand : MemoryLocation)
  | CallInst (c : CallInst)
  | PHINode (addr : MemoryLocation) (incomingValues : List MemoryLocation)
  | ExtractValueInst (addr aggregateOperand : MemoryLocation)
  | InsertValueInst (addr aggregateOperand insertedValueOperand : MemoryLocation)
  | IntToPtrInst (addr : MemoryLocation) (context : Nat)
  | ReturnInst (r : ReturnInst)
  | otherInstruction (addr : MemoryLocation)
  | GlobalVariable (addr initializer : MemoryLocation)
  | otherValue (addr : MemoryLocation)

/-! ## The output iterator -/

/-- The effect of a run on its output iterator: the rules written, in order,
and whether the run was stopped (by a failed `assert`). -/
structure Emission where
  rules : List RuleCode
  failed : Bool
  deriving DecidableEq, Repr

namespace Emission

/-- A run that writes nothing and returns. -/
def empty : Emission := ⟨[], false⟩

/-- A run stopped before it wrote anything: a failed `assert`. -/
def assertFailed : Emission := ⟨[], true⟩

/-- The statement `*out++ = rc`. -/
def put (rc : RuleCode) : Emission := ⟨[rc], false⟩

/-- The statement `*out++ = ruleCode(E)`; an expression without `RuleCode`
constructor does not compile, so that nothing is written. -/
def write : Option RuleCode → Emission
  | some rc => put rc
  | none => assertFailed

/-- Sequential composition: the second run happens only if the first one
returned. -/
def seq (a b : Emission) : Emission :=
  if a.failed then a else ⟨a.rules ++ b.rules, b.failed⟩

/-- A loop over the elements of a range, in order. -/
def forEach {α : Type} : List α → (α → Emission) → Emission
  | [], _ => empty
  | x :: xs, body => seq (body x) (forEach xs body)

end Emission

open Emission

/-! ## Translation of one value -/

/-- The function `detail::toRuleCode(V, out)`. -/
def toRuleCode (env : Env) : Value → Emission
  | .LoadInst V pointerOperand =>
      let op := env.elimConstExpr pointerOperand
      if env.hasExtraReference op then
        write (ruleCode (opAssign (ruleVar V) (ruleVar op)))
      else
        write (ruleCode (opAssign (ruleVar V) (opDeref (ruleVar op))))
  | .StoreInst _ valueOperand pointerOperand =>
      let l := env.elimConstExpr pointerOperand
      let r := env.elimConstExpr valueOperand
      if !env.hasExtraReference l then
        if env.hasExtraReference r then
          write (ruleCode (opAssign (opDeref (ruleVar l)) (opRef (ruleVar r))))
        else if env.isConstantPointerNull r then
          write (ruleCode (opAssign (opDeref (ruleVar l)) (ruleNull r)))
        else
          write (ruleCode (opAssign (opDeref (ruleVar l)) (ruleVar r)))
      else
        if env.hasExtraReference r then
          write (ruleCode (opAssign (ruleVar l) (opRef (ruleVar r))))
        else if env.isConstantPointerNull r then
          write (ruleCode (opAssign (ruleVar l) (ruleNull r)))
        else
          write (ruleCode (opAssign (ruleVar l) (ruleVar r)))
  | .BitCastInst V operand0 =>
      let op := env.elimConstExpr operand0
      if env.hasExtraReference op then
        write (ruleCode (opAssign (ruleVar V) (opRef (ruleVar op))))
      else
        write (ruleCode (opAssign (ruleVar V) (ruleVar op)))
  | .GetElementPtrInst V pointerOperand =>
      let op := env.elimConstExpr pointerOperand
      if env.hasExtraReference op then
        write (ruleCode (opAssign (ruleVar V) (opRef (ruleVar op))))
      else
        write (ruleCode (opAssign (ruleVar V) (ruleVar op)))
  | .CallInst C =>
      let V := C.addr
      -- `if (isInlineAssembly(C)) { }`: an empty body
      seq (if env.isInlineAssembly C.addr then empty else empty)
        (if env.isMemoryAllocation C.calledValue then
          write (ruleCode (opAssign (ruleVar V) (ruleAllocSite V)))
        else if env.isMemoryDeallocation C.calledValue then
          -- `errs() << "KOKO\n"`: a diagnostic, no rule
          empty
        else if env.isMemoryCopy C.calledValue || env.isMemoryMove C.calledValue then
          let l := env.elimConstExpr (C.getArgOperand 0)
          let r := env.elimConstExpr (C.getArgOperand 1)
          write (ruleCode (opAssign (opDeref (ruleVar l)) (opDeref (ruleVar r))))
        else
          empty)
  | .PHINode V incomingValues =>
      -- `for (i = 0; i < n; ++i)` with `r = PHI->getIncomingValue(i)`
      forEach incomingValues fun r =>
        if env.isConstantPointerNull r then
          write (ruleCode (opAssign (ruleVar V) (ruleNull r)))
        else
          write (ruleCode (opAssign (ruleVar V) (ruleVar r)))
  | .ExtractValueInst V aggregateOperand =>
      let op := aggregateOperand
      if env.hasExtraReference op then
        assertFailed
      else
        write (ruleCode (opAssign (ruleVar V) (ruleVar op)))
  | .InsertValueInst _ aggregateOperand insertedValueOperand =>
      let l := aggregateOperand
      if env.hasExtraReference l then
        assertFailed
      else
        let r := insertedValueOperand
        if env.hasExtraReference r then
          write (ruleCode (opAssign (ruleVar l) (opRef (ruleVar r))))
        else if env.isConstantPointerNull r then
          write (ruleCode (opAssign (ruleVar l) (ruleNull r)))
        else
          write (ruleCode (opAssign (ruleVar l) (ruleVar r)))
  | .IntToPtrInst V context =>
      write (ruleCode (opAssign (ruleVar V) (opRef (ruleVar (env.getUndefValue context)))))
  | .ReturnInst _ => empty
  | .otherInstruction _ => empty
  | .GlobalVariable V initializer =>
      let op := initializer
      write (ruleCode (opAssign (ruleVar V) (opRef (ruleVar op))))
  | .otherValue _ => empty

/-! ## Calls and returns -/

/-- The function `detail::collectCallRuleCodes(c, f, out)`, for one target. -/
def collectCallRuleCodes (env : Env) (c : CallInst) (f : Function) : Emission :=
  if env.isInlineAssembly c.addr then
    assertFailed
  else if env.memoryManStuff f.addr && !env.isMemoryAllocation f.addr then
    empty
  else if env.isMemoryAllocation f.addr then
    let V := c.addr
    write (ruleCode (opAssign (ruleVar V) (ruleAllocSite V)))
  else
    seq
      (forEach f.args.enum fun fit =>
        if env.isPointerValue fit.2 then
          put (env.argPassRuleCode fit.2 (env.elimConstExpr (c.getOperand fit.1)))
        else
          empty)
      (if f.isDeclaration && env.isPointerTy f.returnType then
        let l := c.addr
        let r := env.undefValueGet (env.getPointedType f.returnType)
        write (ruleCode (opAssign (ruleVar l) (opRef (ruleVar r))))
      else
        empty)

/-- The function `detail::collectCallRuleCodes(c, b, e, out)`, for a range of
the functions map; an entry of the range is a pair of a key and a function. -/
def collectCallRuleCodesRange (env : Env) (c : CallInst)
    (range : List (TypeRef × Function)) : Emission :=
  match c.calledFunction with
  | some f => collectCallRuleCodes env c f
  | none => forEach range fun b => collectCallRuleCodes env c b.2

/-- The function `detail::collectReturnRuleCodes(r, b, e, out)`; an entry of
the range is a pair of a key and a call site. -/
def collectReturnRuleCodes (env : Env) (r : ReturnInst)
    (range : List (TypeRef × CallInst)) : Emission :=
  if r.numOperands == 0 || !env.isPointerValue (r.getOperand 0) then
    empty
  else
    let f := r.parentFunction
    forEach range fun b =>
      match b.2.calledFunction with
      | some g =>
          if f == g.addr then
            put (env.argPassRuleCode b.2.addr (r.getOperand 0))
          else
            empty
      | none => put (env.argPassRuleCode b.2.addr (r.getOperand 0))

/-! ## Concrete inputs -/

/-- A sample host. Address `1` is a literal null pointer, `2` is a location
with an extra reference, `30` is a constant expression over `2`, `20`, `21`,
`22` and `23` are an allocation, a deallocation, a copy and a move routine,
`40` is an inline-assembly call, odd addresses hold pointers and odd types are
pointer types. -/
def sampleEnv : Env where
  elimConstExpr := fun v => if v = 30 then 2 else v
  hasExtraReference := fun v => v == 2
  isConstantPointerNull := fun v => v == 1
  isMemoryAllocation := fun v => v == 20
  isMemoryDeallocation := fun v => v == 21
  isMemoryCopy := fun v => v == 22
  isMemoryMove := fun v => v == 23
  isInlineAssembly := fun v => v == 40
  isPointerValue := fun v => v % 2 == 1
  memoryManStuff := fun v => v == 20 || v == 21
  getUndefValue := fun ctx => 900 + ctx
  undefValueGet := fun t => 1000 + t
  getPointedType := fun t => t / 2
  isPointerTy := fun t => t % 2 == 1
  argPassRuleCode := fun l r => ⟨RCT_VAR_ASGN_VAR, l, r⟩

/-- The allocation routine at address `20`: a declaration with one formal
parameter, at `61`, that returns a pointer. -/
def sampleMalloc : Function := ⟨20, [61], true, 5⟩

/-- The call `%7 = call @20(%9)`, a direct call of `sampleMalloc`. -/
def sampleMallocCall : CallInst := ⟨7, 20, some sampleMalloc, fun _ => 9, fun _ => 9⟩

/-- A function with three formal parameters, at `51`, `52` and `53`, of which
the first and the last are pointer-valued; it has a body and does not return a
pointer. -/
def sampleF1 : Function := ⟨50, [51, 52, 53], false, 4⟩

/-- A declaration with one pointer-valued formal parameter, at `71`, that
returns a pointer. -/
def sampleF2 : Function := ⟨70, [71], true, 5⟩

/-- An indirect call at address `8`, through the value `3`; its operand `i` is
at address `30 + i`. -/
def sampleIndirectCall : CallInst := ⟨8, 3, none, fun i => 30 + i, fun i => 30 + i⟩

/-- A direct call of `sampleF1`, at address `15`. -/
def sampleCallF1 : CallInst := ⟨15, 50, some sampleF1, fun i => 30 + i, fun i => 30 + i⟩

/-- A direct call of `sampleF2`, at address `17`. -/
def sampleCallF2 : CallInst := ⟨17, 70, some sampleF2, fun i => 30 + i, fun i => 30 + i⟩

/-- A return of the pointer at `33`, inside `sampleF1`. -/
def sampleReturn : ReturnInst := ⟨90, 1, fun _ => 33, 50⟩

/-- A return without operand, inside `sampleF1`. -/
def sampleReturnVoid : ReturnInst := ⟨91, 0, fun _ => 33, 50⟩

/-- The call sites that a return inside the function at `f` propagates to, in
the words of the specification: a call site whose direct callee is `f`, and a
call site without direct callee. -/
def propagatesTo (f : MemoryLocation) (s : CallInst) : Bool :=
  match s.calledFunction with
  | some g => g.addr == f
  | none => true

/-- The deallocation routine at address `21`: a declaration with one
pointer-valued formal parameter, at `63`, that returns a pointer. -/
def sampleFree : Function := ⟨21, [63], true, 5⟩

/-- A direct call of `sampleFree`, at address `18`. -/
def sampleFreeCall : CallInst := ⟨18, 21, some sampleFree, fun i => 30 + i, fun i => 30 + i⟩

/-- A call of the copy routine `22`, at address `19`; its argument `i` is at
address `30 + i`. -/
def sampleCopyCall : CallInst := ⟨19, 22, none, fun i => 30 + i, fun i => 30 + i⟩

/-- A call of the move routine `23`, at address `27`. -/
def sampleMoveCall : CallInst := ⟨27, 23, none, fun i => 30 + i, fun i => 30 + i⟩

/-- The inline-assembly call at address `40`, through the value `41`; it has
no direct callee. -/
def sampleAsmCall : CallInst := ⟨40, 41, none, fun i => 30 + i, fun i => 30 + i⟩

/-- The sample host, except that the literal null pointer `1` has an extra
reference too. -/
def sampleEnvNullExtra : Env :=
  { sampleEnv with hasExtraReference := fun v => v == 2 || v == 1 }

/-- A return instruction as a value: `sampleReturn`. -/
def sampleReturnValue : Value := .ReturnInst sampleReturn

/-- The sample host, except that the allocation routine `20` and the
deallocation routine `21` are classified as copy routines too. -/
def sampleEnvOverlap : Env :=
  { sampleEnv with isMemoryCopy := fun v => v == 22 || v == 20 || v == 21 }

/-- Whether an assignment occurs anywhere in a sort. -/
def ExprSort.containsAssignment : ExprSort → Bool
  | .VARIABLE _ => false
  | .ALLOC _ => false
  | .DEALLOC _ => false
  | .NULLPTR _ => false
  | .REFERENCE sub => sub.containsAssignment
  | .DEREFERENCE sub => sub.containsAssignment
  | .ASSIGNMENT _ _ => true

/-- The shapes of the table of canonical forms, in the words of the
specification: the nine assignment shapes, each built by the builders and the
operators from two locations, and the bare deallocation site. -/
def isTabulatedShape (E : RuleExpression) : Prop :=
  (∃ l r : MemoryLocation,
    E = opAssign (ruleVar l) (ruleAllocSite r) ∨
    E = opAssign (ruleVar l) (ruleNull r) ∨
    E = opAssign (ruleVar l) (ruleVar r) ∨
    E = opAssign (ruleVar l) (opRef (ruleVar r)) ∨
    E = opAssign (ruleVar l) (opDeref (ruleVar r)) ∨
    E = opAssign (opDeref (ruleVar l)) (ruleNull r) ∨
    E = opAssign (opDeref (ruleVar l)) (ruleVar r) ∨
    E = opAssign (opDeref (ruleVar l)) (opRef (ruleVar r)) ∨
    E = opAssign (opDeref (ruleVar l)) (opDeref (ruleVar r))) ∨
  (∃ l : MemoryLocation, E = ruleDeallocSite l)

/-! ## Expansion of a rule code -/

/-- The default constructor `RuleCode()`: it sets the type to `RCT_UNKNOWN`
and leaves the two locations uninitialised, so that they are parameters. -/
def RuleCode.unknown (lvalue rvalue : MemoryLocation) : RuleCode :=
  ⟨RCT_UNKNOWN, lvalue, rvalue⟩

/-- The function `getRulesOfCommand(RC, R)`. The class `Rules` is only
declared in the header: its member `R.insert(E)` is the parameter `insert`, and
`R` is passed through. -/
def getRulesOfCommand {ρ : Type} (insert : ρ → RuleExpression → ρ) (RC : RuleCode) (R : ρ) : ρ :=
  match RC.getType with
  | .RCT_VAR_ASGN_ALLOC =>
      insert R (opAssign (ruleVar RC.getLvalue) (ruleAllocSite RC.getRvalue))
  | .RCT_VAR_ASGN_NULL =>
      insert R (opAssign (ruleVar RC.getLvalue) (ruleNull RC.getRvalue))
  | .RCT_VAR_ASGN_VAR =>
      insert R (opAssign (ruleVar RC.getLvalue) (ruleVar RC.getRvalue))
  | .RCT_VAR_ASGN_REF_VAR =>
      insert R (opAssign (ruleVar RC.getLvalue) (opRef (ruleVar RC.getRvalue)))
  | .RCT_VAR_ASGN_DREF_VAR =>
      insert R (opAssign (ruleVar RC.getLvalue) (opDeref (ruleVar RC.getRvalue)))
  | .RCT_DREF_VAR_ASGN_NULL =>
      insert R (opAssign (opDeref (ruleVar RC.getLvalue)) (ruleNull RC.getRvalue))
  | .RCT_DREF_VAR_ASGN_VAR =>
      insert R (opAssign (opDeref (ruleVar RC.getLvalue)) (ruleVar RC.getRvalue))
  | .RCT_DREF_VAR_ASGN_REF_VAR =>
      insert R (opAssign (opDeref (ruleVar RC.getLvalue)) (opRef (ruleVar RC.getRvalue)))
  | .RCT_DREF_VAR_ASGN_DREF_VAR =>
      insert R (opAssign (opDeref (ruleVar RC.getLvalue)) (opDeref (ruleVar RC.getRvalue)))
  | .RCT_DEALLOC =>
      insert R (ruleDeallocSite RC.getValue)
  | _ => R

/-- A container of rules that records the expressions inserted, in order. -/
def recordInsert (R : List RuleExpression) (E : RuleExpression) : List RuleExpression :=
  R ++ [E]

/-- The sample host, except that no call is inline assembly. -/
def sampleEnvNoAsm : Env :=
  { sampleEnv with isInlineAssembly := fun _ => false }

/-- The inline-assembly call at address `40`, with the allocation routine `20`
as its called value and the arguments of `sampleMallocCall`. -/
def sampleAsmMallocCall : CallInst := ⟨40, 20, none, fun _ => 9, fun _ => 9⟩

/-- The inline-assembly call at address `40`, with the copy routine `22` as
its called value and the arguments of `sampleCopyCall`. -/
def sampleAsmCopyCall : CallInst := ⟨40, 22, none, fun i => 30 + i, fun i => 30 + i⟩

/-! ## The grammar and the canonical form -/

/-- C1: grammar closure. For all locations `l` and `r`, each of the nine
assignment shapes, built with the leaf builders and the three operators, has a
`RuleCode` whose type is the code of that shape, whose lvalue is `l` and whose
rvalue is `r`; and `ruleCode (ruleDeallocSite l)` has type `RCT_DEALLOC` and
lvalue `l`. -/
theorem C1_grammar_closure (l r : MemoryLocation) :
    ruleCode (opAssign (ruleVar l) (ruleAllocSite r)) = some ⟨RCT_VAR_ASGN_ALLOC, l, r⟩ ∧
    ruleCode (opAssign (ruleVar l) (ruleNull r)) = some ⟨RCT_VAR_ASGN_NULL, l, r⟩ ∧
    ruleCode (opAssign (ruleVar l) (ruleVar r)) = some ⟨RCT_VAR_ASGN_VAR, l, r⟩ ∧
    ruleCode (opAssign (ruleVar l) (opRef (ruleVar r))) = some ⟨RCT_VAR_ASGN_REF_VAR, l, r⟩ ∧
    ruleCode (opAssign (ruleVar l) (opDeref (ruleVar r))) = some ⟨RCT_VAR_ASGN_DREF_VAR, l, r⟩ ∧
    ruleCode (opAssign (opDeref (ruleVar l)) (ruleNull r)) = some ⟨RCT_DREF_VAR_ASGN_NULL, l, r⟩ ∧
    ruleCode (opAssign (opDeref (ruleVar l)) (ruleVar r)) = some ⟨RCT_DREF_VAR_ASGN_VAR, l, r⟩ ∧
    ruleCode (opAssign (opDeref (ruleVar l)) (opRef (ruleVar r))) =
      some ⟨RCT_DREF_VAR_ASGN_REF_VAR, l, r⟩ ∧
    ruleCode (opAssign (opDeref (ruleVar l)) (opDeref (ruleVar r))) =
      some ⟨RCT_DREF_VAR_ASGN_DREF_VAR, l, r⟩ ∧
    (∃ rc, ruleCode (ruleDeallocSite l) = some rc ∧
      rc.getType = RCT_DEALLOC ∧ rc.getLvalue = l) := by
  refine ⟨rfl, rfl, rfl, rfl, rfl, rfl, rfl, rfl, rfl, ?_⟩
  exact ⟨⟨RCT_DEALLOC, l, nullPtr⟩, rfl, rfl, rfl⟩

/-- A nested assignment has no `RuleCode` constructor, on whichever side the
inner assignment stands. -/
theorem construct_nested_assignment (a b y : ExprSort) :
    RuleCode.construct (.ASSIGNMENT (.ASSIGNMENT a b) y) = none ∧
    RuleCode.construct (.ASSIGNMENT y (.ASSIGNMENT a b)) = none := by
  constructor
  · rfl
  · cases y with
    | DEREFERENCE s => cases s <;> rfl
    | _ => rfl

/-- A leaf wrapped twice has no `RuleCode` constructor, alone or as a side of
an assignment. -/
theorem construct_double_wrap (k : LeafKind) (w1 w2 : WrapKind) (ml : MemoryLocation)
    (z : ExprSort) :
    RuleCode.construct (w2.apply (w1.apply (k.build ml))).getSort = none ∧
    RuleCode.construct (.ASSIGNMENT (w2.apply (w1.apply (k.build ml))).getSort z) = none ∧
    RuleCode.construct (.ASSIGNMENT z (w2.apply (w1.apply (k.build ml))).getSort) = none := by
  refine ⟨?_, ?_, ?_⟩
  · cases k <;> cases w1 <;> cases w2 <;> rfl
  · cases k <;> cases w1 <;> cases w2 <;> rfl
  · cases k <;> cases w1 <;> cases w2 <;> cases z <;>
      first
        | rfl
        | (rename_i s; cases s <;> rfl)

/-- C2, counterexample: the assignment operator applied to an assignment, on
the left and on the right, and the unary operators applied twice to a leaf all
return an expression: the nested tree is built, nothing fails at
construction. -/
theorem C2_counterexample :
    (opAssign (opAssign (ruleVar 1) (ruleVar 2)) (ruleVar 3)).getSort =
      .ASSIGNMENT (.ASSIGNMENT (.VARIABLE 1) (.VARIABLE 2)) (.VARIABLE 3) ∧
    (opAssign (ruleVar 3) (opAssign (ruleVar 1) (ruleVar 2))).getSort =
      .ASSIGNMENT (.VARIABLE 3) (.ASSIGNMENT (.VARIABLE 1) (.VARIABLE 2)) ∧
    (opRef (opRef (ruleVar 1))).getSort = .REFERENCE (.REFERENCE (.VARIABLE 1)) ∧
    (opDeref (opRef (ruleAllocSite 1))).getSort = .DEREFERENCE (.REFERENCE (.ALLOC 1)) ∧
    (opRef (opDeref (ruleNull 1))).getSort = .REFERENCE (.DEREFERENCE (.NULLPTR 1)) ∧
    (opDeref (opDeref (ruleDeallocSite 1))).getSort =
      .DEREFERENCE (.DEREFERENCE (.DEALLOC 1)) := by
  decide

/-- C2, amended: the three operators accept every operand. For all `x` and `y`
the assignment operator returns the tree `ASSIGNMENT x y`, also when `x` or `y`
is an assignment, and each unary operator returns the wrapped tree, also on a
wrapped leaf. The rejection happens in `ruleCode`: an assignment with an
assignment on either side has no `RuleCode`, and a leaf wrapped twice has no
`RuleCode`, alone or on either side of an assignment. -/
theorem C2_rejection_at_ruleCode (x y z : RuleExpression) (k : LeafKind) (w1 w2 : WrapKind)
    (ml : MemoryLocation) :
    (opAssign x y).getSort = .ASSIGNMENT x.getSort y.getSort ∧
    (opRef x).getSort = .REFERENCE x.getSort ∧
    (opDeref x).getSort = .DEREFERENCE x.getSort ∧
    ruleCode (opAssign (opAssign x y) z) = none ∧
    ruleCode (opAssign z (opAssign x y)) = none ∧
    ruleCode (w2.apply (w1.apply (k.build ml))) = none ∧
    ruleCode (opAssign (w2.apply (w1.apply (k.build ml))) z) = none ∧
    ruleCode (opAssign z (w2.apply (w1.apply (k.build ml)))) = none := by
  refine ⟨rfl, rfl, rfl, ?_, ?_, ?_, ?_, ?_⟩
  · exact (construct_nested_assignment x.sort y.sort z.sort).1
  · exact (construct_nested_assignment x.sort y.sort z.sort).2
  · exact (construct_double_wrap k w1 w2 ml z.sort).1
  · exact (construct_double_wrap k w1 w2 ml z.sort).2.1
  · exact (construct_double_wrap k w1 w2 ml z.sort).2.2

/-! ## Facts about the output iterator -/

/-- Writing the rule of `l = alloc r`. -/
@[simp] theorem write_var_alloc (l r : MemoryLocation) :
    write (ruleCode (opAssign (ruleVar l) (ruleAllocSite r))) =
      ⟨[⟨RCT_VAR_ASGN_ALLOC, l, r⟩], false⟩ := rfl

/-- Writing the rule of `l = null r`. -/
@[simp] theorem write_var_null (l r : MemoryLocation) :
    write (ruleCode (opAssign (ruleVar l) (ruleNull r))) =
      ⟨[⟨RCT_VAR_ASGN_NULL, l, r⟩], false⟩ := rfl

/-- Writing the rule of `l = r`. -/
@[simp] theorem write_var_var (l r : MemoryLocation) :
    write (ruleCode (opAssign (ruleVar l) (ruleVar r))) =
      ⟨[⟨RCT_VAR_ASGN_VAR, l, r⟩], false⟩ := rfl

/-- Writing the rule of `l = &r`. -/
@[simp] theorem write_var_ref (l r : MemoryLocation) :
    write (ruleCode (opAssign (ruleVar l) (opRef (ruleVar r)))) =
      ⟨[⟨RCT_VAR_ASGN_REF_VAR, l, r⟩], false⟩ := rfl

/-- Writing the rule of `l = *r`. -/
@[simp] theorem write_var_dref (l r : MemoryLocation) :
    write (ruleCode (opAssign (ruleVar l) (opDeref (ruleVar r)))) =
      ⟨[⟨RCT_VAR_ASGN_DREF_VAR, l, r⟩], false⟩ := rfl

/-- Writing the rule of `*l = null r`. -/
@[simp] theorem write_dref_null (l r : MemoryLocation) :
    write (ruleCode (opAssign (opDeref (ruleVar l)) (ruleNull r))) =
      ⟨[⟨RCT_DREF_VAR_ASGN_NULL, l, r⟩], false⟩ := rfl

/-- Writing the rule of `*l = r`. -/
@[simp] theorem write_dref_var (l r : MemoryLocation) :
    write (ruleCode (opAssign (opDeref (ruleVar l)) (ruleVar r))) =
      ⟨[⟨RCT_DREF_VAR_ASGN_VAR, l, r⟩], false⟩ := rfl

/-- Writing the rule of `*l = &r`. -/
@[simp] theorem write_dref_ref (l r : MemoryLocation) :
    write (ruleCode (opAssign (opDeref (ruleVar l)) (opRef (ruleVar r)))) =
      ⟨[⟨RCT_DREF_VAR_ASGN_REF_VAR, l, r⟩], false⟩ := rfl

/-- Writing the rule of `*l = *r`. -/
@[simp] theorem write_dref_dref (l r : MemoryLocation) :
    write (ruleCode (opAssign (opDeref (ruleVar l)) (opDeref (ruleVar r)))) =
      ⟨[⟨RCT_DREF_VAR_ASGN_DREF_VAR, l, r⟩], false⟩ := rfl

/-- A run that writes nothing is a left unit of sequencing. -/
@[simp] theorem seq_empty_left (b : Emission) : seq Emission.empty b = b := rfl

/-- A run that writes nothing is a right unit of sequencing. -/
@[simp] theorem seq_empty_right (a : Emission) : seq a Emission.empty = a := by
  cases a with
  | mk rules failed => cases failed <;> simp [seq, Emission.empty]

/-- Sequencing after a run that returned. -/
theorem seq_of_returned (rs : List RuleCode) (b : Emission) :
    seq ⟨rs, false⟩ b = ⟨rs ++ b.rules, b.failed⟩ := rfl

/-- Sequencing after a run that was stopped. -/
theorem seq_of_stopped (rs : List RuleCode) (b : Emission) :
    seq ⟨rs, true⟩ b = ⟨rs, true⟩ := rfl

/-- A loop whose body writes one rule per element. -/
theorem forEach_put {α : Type} (xs : List α) (g : α → RuleCode) :
    forEach xs (fun x => put (g x)) = ⟨xs.map g, false⟩ := by
  induction xs with
  | nil => rfl
  | cons x xs ih =>
    simp only [forEach]
    rw [ih]
    simp [put, seq]

/-- A loop whose body writes one rule for the elements that pass a test and
nothing for the others. -/
theorem forEach_put_if {α : Type} (xs : List α) (p : α → Bool) (g : α → RuleCode) :
    forEach xs (fun x => if p x then put (g x) else Emission.empty) =
      ⟨(xs.filter p).map g, false⟩ := by
  induction xs with
  | nil => rfl
  | cons x xs ih =>
    simp only [forEach]
    rw [ih]
    cases hp : p x <;> simp [put, seq, Emission.empty, List.filter_cons, hp]

/-- A loop none of whose iterations is stopped writes the rules of its
iterations, in order. -/
theorem forEach_returned {α : Type} (xs : List α) (body : α → Emission)
    (h : ∀ x ∈ xs, (body x).failed = false) :
    forEach xs body = ⟨(xs.map fun x => (body x).rules).flatten, false⟩ := by
  induction xs with
  | nil => rfl
  | cons x xs ih =>
    have hx : (body x).failed = false := h x (List.mem_cons_self x xs)
    have hxs : ∀ y ∈ xs, (body y).failed = false :=
      fun y hy => h y (List.mem_cons_of_mem x hy)
    simp only [forEach]
    rw [ih hxs]
    simp [seq, hx]

/-- A loop each of whose iterations is stopped at once writes nothing, and is
stopped if it has an iteration. -/
theorem forEach_stopped {α : Type} (xs : List α) (body : α → Emission)
    (h : ∀ x ∈ xs, body x = assertFailed) :
    forEach xs body = ⟨[], !xs.isEmpty⟩ := by
  cases xs with
  | nil => rfl
  | cons x xs =>
    have hx : body x = assertFailed := h x (List.mem_cons_self x xs)
    simp [forEach, hx, seq, assertFailed]

/-- An inline-assembly call stops `collectCallRuleCodes` before any rule. -/
theorem collectCallRuleCodes_inlineAssembly (env : Env) (c : CallInst) (f : Function)
    (h : env.isInlineAssembly c.addr = true) :
    collectCallRuleCodes env c f = assertFailed := by
  simp [collectCallRuleCodes, h]

/-- For a call that is not inline assembly `collectCallRuleCodes` returns. -/
theorem collectCallRuleCodes_returns (env : Env) (c : CallInst) (f : Function)
    (h : env.isInlineAssembly c.addr = false) :
    (collectCallRuleCodes env c f).failed = false := by
  unfold collectCallRuleCodes
  simp only [h, Bool.false_eq_true, if_false]
  split
  · rfl
  · split
    · simp
    · rw [forEach_put_if, seq_of_returned]
      split <;> simp [Emission.empty]

/-- The rules of `collectCallRuleCodes` for a call that is not inline
assembly and a target that is neither memory management nor an allocation: one
argument-passing rule per pointer-valued formal, then the rule of an unknown
return value if the target is a declaration that returns a pointer. -/
theorem collectCallRuleCodes_ordinary (env : Env) (c : CallInst) (f : Function)
    (hasm : env.isInlineAssembly c.addr = false)
    (hman : env.memoryManStuff f.addr = false)
    (halloc : env.isMemoryAllocation f.addr = false) :
    collectCallRuleCodes env c f =
      ⟨(f.args.enum.filter fun fit => env.isPointerValue fit.2).map
          (fun fit => env.argPassRuleCode fit.2 (env.elimConstExpr (c.getOperand fit.1))) ++
        (if f.isDeclaration && env.isPointerTy f.returnType then
          [⟨RCT_VAR_ASGN_REF_VAR, c.addr,
            env.undefValueGet (env.getPointedType f.returnType)⟩]
        else []), false⟩ := by
  unfold collectCallRuleCodes
  simp only [hasm, hman, halloc, Bool.false_eq_true, if_false, Bool.false_and]
  rw [forEach_put_if, seq_of_returned]
  split <;> simp [Emission.empty]

/-- The body of the loop of `collectReturnRuleCodes` writes one rule for a
call site that `propagatesTo` selects and nothing for another one. -/
theorem collectReturnRuleCodes_body (env : Env) (r : ReturnInst) (s : CallInst) :
    (match s.calledFunction with
      | some g =>
          if r.parentFunction == g.addr then
            put (env.argPassRuleCode s.addr (r.getOperand 0))
          else
            Emission.empty
      | none => put (env.argPassRuleCode s.addr (r.getOperand 0))) =
    if propagatesTo r.parentFunction s then
      put (env.argPassRuleCode s.addr (r.getOperand 0))
    else Emission.empty := by
  unfold propagatesTo
  cases s.calledFunction with
  | none => simp
  | some g =>
    by_cases h : r.parentFunction = g.addr
    · simp [h]
    · have h2 : ¬ g.addr = r.parentFunction := fun e => h e.symm
      simp [h, h2]

/-! ## Translation of one value: the claims -/

/-- C3: allocation self-reference. For every call `c` whose called value is
classified as an allocation, `toRuleCode` emits exactly one rule,
`RCT_VAR_ASGN_ALLOC` with lvalue and rvalue `c`; and for every target `f`
classified as an allocation and every call `c` that is not inline assembly,
`collectCallRuleCodes c f` emits exactly that rule and nothing else. -/
theorem C3_allocation_self_reference (env : Env) (c : CallInst) (f : Function) :
    (env.isMemoryAllocation c.calledValue = true →
      toRuleCode env (.CallInst c) = ⟨[⟨RCT_VAR_ASGN_ALLOC, c.addr, c.addr⟩], false⟩) ∧
    (env.isMemoryAllocation f.addr = true → env.isInlineAssembly c.addr = false →
      collectCallRuleCodes env c f = ⟨[⟨RCT_VAR_ASGN_ALLOC, c.addr, c.addr⟩], false⟩) := by
  constructor
  · intro h
    simp [toRuleCode, h]
  · intro h hasm
    simp [collectCallRuleCodes, h, hasm]

/-- C3, witness: the call `%7 = call @20(%9)` of the allocation routine `20`,
a declaration that returns a pointer and has a pointer-valued formal. -/
theorem C3_allocation_self_reference_witness :
    (sampleEnv.isMemoryAllocation sampleMallocCall.calledValue = true ∧
      toRuleCode sampleEnv (.CallInst sampleMallocCall) =
        ⟨[⟨RCT_VAR_ASGN_ALLOC, 7, 7⟩], false⟩) ∧
    (sampleEnv.isMemoryAllocation sampleMalloc.addr = true ∧
      sampleEnv.isInlineAssembly sampleMallocCall.addr = false ∧
      sampleMalloc.isDeclaration = true ∧
      sampleEnv.isPointerTy sampleMalloc.returnType = true ∧
      collectCallRuleCodes sampleEnv sampleMallocCall sampleMalloc =
        ⟨[⟨RCT_VAR_ASGN_ALLOC, 7, 7⟩], false⟩) :=
  ⟨⟨rfl, (C3_allocation_self_reference sampleEnv sampleMallocCall sampleMalloc).1 rfl⟩,
   ⟨rfl, rfl, rfl, rfl,
    (C3_allocation_self_reference sampleEnv sampleMallocCall sampleMalloc).2 rfl rfl⟩⟩

/-- C4: load case split. For every load `x` with pointer operand `p` and
`op = elimConstExpr p`, `toRuleCode` emits exactly one rule:
`RCT_VAR_ASGN_VAR (x, op)` when `hasExtraReference op`, and
`RCT_VAR_ASGN_DREF_VAR (x, op)` when not. -/
theorem C4_load_case_split (env : Env) (x p : MemoryLocation) :
    (env.hasExtraReference (env.elimConstExpr p) = true →
      toRuleCode env (.LoadInst x p) =
        ⟨[⟨RCT_VAR_ASGN_VAR, x, env.elimConstExpr p⟩], false⟩) ∧
    (env.hasExtraReference (env.elimConstExpr p) = false →
      toRuleCode env (.LoadInst x p) =
        ⟨[⟨RCT_VAR_ASGN_DREF_VAR, x, env.elimConstExpr p⟩], false⟩) := by
  constructor <;> intro h <;> simp [toRuleCode, h]

/-- C4, witness: a load from the constant expression `30` over the location
`2`, which has an extra reference, and a load from the plain location `3`. -/
theorem C4_load_case_split_witness :
    (sampleEnv.hasExtraReference (sampleEnv.elimConstExpr 30) = true ∧
      toRuleCode sampleEnv (.LoadInst 10 30) = ⟨[⟨RCT_VAR_ASGN_VAR, 10, 2⟩], false⟩) ∧
    (sampleEnv.hasExtraReference (sampleEnv.elimConstExpr 3) = false ∧
      toRuleCode sampleEnv (.LoadInst 11 3) = ⟨[⟨RCT_VAR_ASGN_DREF_VAR, 11, 3⟩], false⟩) :=
  ⟨⟨rfl, (C4_load_case_split sampleEnv 10 30).1 rfl⟩,
   ⟨rfl, (C4_load_case_split sampleEnv 11 3).2 rfl⟩⟩

/-- C5, counterexample: the store of the literal null pointer `1` through the
location `2`, which has an extra reference. The claim expects the one rule
`RCT_DREF_VAR_ASGN_NULL (2, 1)`; the rule emitted is `RCT_VAR_ASGN_NULL (2, 1)`,
without dereference. -/
theorem C5_counterexample :
    sampleEnv.isConstantPointerNull 1 = true ∧
    sampleEnv.hasExtraReference 2 = true ∧
    toRuleCode sampleEnv (.StoreInst 12 1 2) = ⟨[⟨RCT_VAR_ASGN_NULL, 2, 1⟩], false⟩ ∧
    toRuleCode sampleEnv (.StoreInst 12 1 2) ≠ ⟨[⟨RCT_DREF_VAR_ASGN_NULL, 2, 1⟩], false⟩ := by
  decide

/-- C5, amended: for every store with `l = elimConstExpr` of its pointer
operand and `r = elimConstExpr` of its value operand, where `r` is a literal
null pointer without extra reference, `toRuleCode` emits exactly one rule, with
lvalue `l` and rvalue `r`: `RCT_VAR_ASGN_NULL` when `hasExtraReference l`, and
`RCT_DREF_VAR_ASGN_NULL` when not. -/
theorem C5_store_null (env : Env) (s v q : MemoryLocation)
    (hnull : env.isConstantPointerNull (env.elimConstExpr v) = true)
    (hr : env.hasExtraReference (env.elimConstExpr v) = false) :
    (env.hasExtraReference (env.elimConstExpr q) = true →
      toRuleCode env (.StoreInst s v q) =
        ⟨[⟨RCT_VAR_ASGN_NULL, env.elimConstExpr q, env.elimConstExpr v⟩], false⟩) ∧
    (env.hasExtraReference (env.elimConstExpr q) = false →
      toRuleCode env (.StoreInst s v q) =
        ⟨[⟨RCT_DREF_VAR_ASGN_NULL, env.elimConstExpr q, env.elimConstExpr v⟩], false⟩) := by
  constructor <;> intro h <;> simp [toRuleCode, h, hnull, hr]

/-- C5, witness: the null pointer `1` stored through the constant expression
`30` over the location `2` (extra reference), and through the plain location
`3`. -/
theorem C5_store_null_witness :
    (sampleEnv.isConstantPointerNull (sampleEnv.elimConstExpr 1) = true ∧
      sampleEnv.hasExtraReference (sampleEnv.elimConstExpr 1) = false) ∧
    (sampleEnv.hasExtraReference (sampleEnv.elimConstExpr 30) = true ∧
      toRuleCode sampleEnv (.StoreInst 12 1 30) = ⟨[⟨RCT_VAR_ASGN_NULL, 2, 1⟩], false⟩) ∧
    (sampleEnv.hasExtraReference (sampleEnv.elimConstExpr 3) = false ∧
      toRuleCode sampleEnv (.StoreInst 13 1 3) = ⟨[⟨RCT_DREF_VAR_ASGN_NULL, 3, 1⟩], false⟩) :=
  ⟨⟨rfl, rfl⟩,
   ⟨rfl, (C5_store_null sampleEnv 12 1 30 rfl rfl).1 rfl⟩,
   ⟨rfl, (C5_store_null sampleEnv 13 1 3 rfl rfl).2 rfl⟩⟩

/-- C6: phi ordering. For every phi node `x` with incoming values `vs`,
`toRuleCode` emits exactly one rule per incoming value, in the order of the
incoming values: `RCT_VAR_ASGN_NULL (x, v)` if `v` is a literal null pointer and
`RCT_VAR_ASGN_VAR (x, v)` otherwise. So the number of rules is the number of
incoming values, the `i`-th rule is the rule of the `i`-th incoming value,
incoming values `[null, v2, v3]` give `x := null`, `x := v2`, `x := v3` in that
order, and a phi without incoming value gives no rule. -/
theorem C6_phi_ordering (env : Env) (x : MemoryLocation) (vs : List MemoryLocation) :
    toRuleCode env (.PHINode x vs) =
      ⟨vs.map (fun v =>
        ⟨if env.isConstantPointerNull v then RCT_VAR_ASGN_NULL else RCT_VAR_ASGN_VAR, x, v⟩),
       false⟩ ∧
    (toRuleCode env (.PHINode x vs)).rules.length = vs.length ∧
    (∀ i : Nat, (toRuleCode env (.PHINode x vs)).rules[i]? =
      (vs[i]?).map (fun v =>
        ⟨if env.isConstantPointerNull v then RCT_VAR_ASGN_NULL else RCT_VAR_ASGN_VAR, x, v⟩)) ∧
    (∀ v1 v2 v3 : MemoryLocation, env.isConstantPointerNull v1 = true →
      env.isConstantPointerNull v2 = false → env.isConstantPointerNull v3 = false →
      toRuleCode env (.PHINode x [v1, v2, v3]) =
        ⟨[⟨RCT_VAR_ASGN_NULL, x, v1⟩, ⟨RCT_VAR_ASGN_VAR, x, v2⟩, ⟨RCT_VAR_ASGN_VAR, x, v3⟩],
         false⟩) ∧
    toRuleCode env (.PHINode x []) = ⟨[], false⟩ := by
  have body : ∀ us : List MemoryLocation, toRuleCode env (.PHINode x us) =
      ⟨us.map (fun v =>
        ⟨if env.isConstantPointerNull v then RCT_VAR_ASGN_NULL else RCT_VAR_ASGN_VAR, x, v⟩),
       false⟩ := by
    intro us
    have hb : (fun r => if env.isConstantPointerNull r = true then
          write (ruleCode (opAssign (ruleVar x) (ruleNull r)))
        else write (ruleCode (opAssign (ruleVar x) (ruleVar r)))) =
        fun r => put ⟨if env.isConstantPointerNull r then RCT_VAR_ASGN_NULL
          else RCT_VAR_ASGN_VAR, x, r⟩ := by
      funext r
      cases env.isConstantPointerNull r <;> simp [put]
    simp only [toRuleCode, hb]
    exact forEach_put us _
  refine ⟨body vs, ?_, ?_, ?_, ?_⟩
  · rw [body vs]; simp
  · intro i
    rw [body vs]; simp
  · intro v1 v2 v3 h1 h2 h3
    rw [body]; simp [h1, h2, h3]
  · rw [body]; rfl

/-- C6, witness: the phi node `14` with incoming values `[1, 3, 5]`, of which
`1` is the literal null pointer. -/
theorem C6_phi_ordering_witness :
    sampleEnv.isConstantPointerNull 1 = true ∧
    sampleEnv.isConstantPointerNull 3 = false ∧
    sampleEnv.isConstantPointerNull 5 = false ∧
    toRuleCode sampleEnv (.PHINode 14 [1, 3, 5]) =
      ⟨[⟨RCT_VAR_ASGN_NULL, 14, 1⟩, ⟨RCT_VAR_ASGN_VAR, 14, 3⟩, ⟨RCT_VAR_ASGN_VAR, 14, 5⟩],
       false⟩ :=
  ⟨rfl, rfl, rfl, (C6_phi_ordering sampleEnv 14 []).2.2.2.1 1 3 5 rfl rfl rfl⟩

/-- C7: global variable. For every global variable `GV` with initializer
`init`, `toRuleCode` emits exactly one rule, `RCT_VAR_ASGN_REF_VAR` with lvalue
`GV` and rvalue `init`, the initializer itself: the result depends neither on
`elimConstExpr` nor on `hasExtraReference`. -/
theorem C7_global_variable (env : Env) (GV init : MemoryLocation) :
    toRuleCode env (.GlobalVariable GV init) = ⟨[⟨RCT_VAR_ASGN_REF_VAR, GV, init⟩], false⟩ := by
  simp [toRuleCode]

/-! ## Calls and returns: the claims -/

/-- C8: call target selection and indirect fan-out. For every call `c` and
range of the functions map: when `c` has a direct callee `f` the range overload
does exactly what `collectCallRuleCodes c f` does, whatever the range is; when
`c` has no direct callee its rules are the concatenation, in range order, of
the rules of `collectCallRuleCodes c g` for the functions `g` of the range (and
it is stopped exactly when one of these is), so that two candidates `f1`, `f2`
give the rules of `f1` followed by the rules of `f2`, and an empty range gives
no rule. -/
theorem C8_call_target_selection (env : Env) (c : CallInst)
    (range : List (TypeRef × Function)) :
    (∀ f : Function, c.calledFunction = some f →
      collectCallRuleCodesRange env c range = collectCallRuleCodes env c f) ∧
    (c.calledFunction = none →
      (collectCallRuleCodesRange env c range).rules =
        (range.map fun b => (collectCallRuleCodes env c b.2).rules).flatten ∧
      (collectCallRuleCodesRange env c range).failed =
        range.any fun b => (collectCallRuleCodes env c b.2).failed) ∧
    (∀ (k1 k2 : TypeRef) (f1 f2 : Function), c.calledFunction = none →
      (collectCallRuleCodesRange env c [(k1, f1), (k2, f2)]).rules =
        (collectCallRuleCodes env c f1).rules ++ (collectCallRuleCodes env c f2).rules) ∧
    (c.calledFunction = none → collectCallRuleCodesRange env c [] = ⟨[], false⟩) := by
  have key : ∀ rg : List (TypeRef × Function), c.calledFunction = none →
      (collectCallRuleCodesRange env c rg).rules =
        (rg.map fun b => (collectCallRuleCodes env c b.2).rules).flatten ∧
      (collectCallRuleCodesRange env c rg).failed =
        rg.any fun b => (collectCallRuleCodes env c b.2).failed := by
    intro rg hnone
    simp only [collectCallRuleCodesRange, hnone]
    cases hasm : env.isInlineAssembly c.addr with
    | true =>
      have hall : ∀ b ∈ rg, collectCallRuleCodes env c b.2 = assertFailed :=
        fun b _ => collectCallRuleCodes_inlineAssembly env c b.2 hasm
      rw [forEach_stopped rg _ hall]
      have h1 : ∀ b : TypeRef × Function, collectCallRuleCodes env c b.2 = assertFailed :=
        fun b => collectCallRuleCodes_inlineAssembly env c b.2 hasm
      simp only [h1]
      constructor
      · simp [assertFailed]
      · cases rg <;> simp [assertFailed]
    | false =>
      have hall : ∀ b ∈ rg, (collectCallRuleCodes env c b.2).failed = false :=
        fun b _ => collectCallRuleCodes_returns env c b.2 hasm
      rw [forEach_returned rg _ hall]
      refine ⟨rfl, ?_⟩
      have h2 : ∀ b : TypeRef × Function, (collectCallRuleCodes env c b.2).failed = false :=
        fun b => collectCallRuleCodes_returns env c b.2 hasm
      simp only [h2]
      simp
  refine ⟨?_, key range, ?_, ?_⟩
  · intro f hf
    simp [collectCallRuleCodesRange, hf]
  · intro k1 k2 f1 f2 hnone
    rw [(key [(k1, f1), (k2, f2)] hnone).1]
    simp
  · intro hnone
    simp [collectCallRuleCodesRange, hnone, forEach, Emission.empty]

/-- C8, witness: with the candidates `sampleF1` and `sampleF2`, the direct call
of `sampleF2` gets the rules of `sampleF2` only, and the indirect call gets the
rules of `sampleF1` followed by the rules of `sampleF2`. -/
theorem C8_call_target_selection_witness :
    (sampleCallF2.calledFunction = some sampleF2 ∧
      collectCallRuleCodesRange sampleEnv sampleCallF2 [(0, sampleF1), (0, sampleF2)] =
        ⟨[⟨RCT_VAR_ASGN_VAR, 71, 2⟩, ⟨RCT_VAR_ASGN_REF_VAR, 17, 1002⟩], false⟩) ∧
    (sampleIndirectCall.calledFunction = none ∧
      (collectCallRuleCodesRange sampleEnv sampleIndirectCall
          [(0, sampleF1), (0, sampleF2)]).rules =
        [⟨RCT_VAR_ASGN_VAR, 51, 2⟩, ⟨RCT_VAR_ASGN_VAR, 53, 32⟩,
         ⟨RCT_VAR_ASGN_VAR, 71, 2⟩, ⟨RCT_VAR_ASGN_REF_VAR, 8, 1002⟩]) ∧
    (collectCallRuleCodesRange sampleEnv sampleIndirectCall []).rules = [] :=
  ⟨⟨rfl, (C8_call_target_selection sampleEnv sampleCallF2
      [(0, sampleF1), (0, sampleF2)]).1 sampleF2 rfl⟩,
   ⟨rfl, (C8_call_target_selection sampleEnv sampleIndirectCall
      [(0, sampleF1), (0, sampleF2)]).2.1 rfl |>.1⟩,
   congrArg Emission.rules
     ((C8_call_target_selection sampleEnv sampleIndirectCall []).2.2.2 rfl)⟩

/-- C9: return propagation. For every return `r` inside the function `f` and
every range of call sites, `collectReturnRuleCodes` emits nothing if `r` has no
operand or its operand `0` is not pointer-valued; otherwise it emits, in range
order, exactly one rule `argPassRuleCode (s, operand 0)` for each call site `s`
of the range whose direct callee is `f` or that has no direct callee, and no
rule for a call site whose direct callee is another function. So with `c1`
calling `f` and `c2` calling `g`, distinct from `f`, the only rule is the one of
`c1`. -/
theorem C9_return_propagation (env : Env) (r : ReturnInst)
    (range : List (TypeRef × CallInst)) :
    (r.numOperands = 0 ∨ env.isPointerValue (r.getOperand 0) = false →
      collectReturnRuleCodes env r range = ⟨[], false⟩) ∧
    (r.numOperands ≠ 0 → env.isPointerValue (r.getOperand 0) = true →
      collectReturnRuleCodes env r range =
        ⟨(range.filter fun b => propagatesTo r.parentFunction b.2).map
          (fun b => env.argPassRuleCode b.2.addr (r.getOperand 0)), false⟩) ∧
    (∀ (k1 k2 : TypeRef) (c1 c2 : CallInst) (f g : Function),
      r.numOperands ≠ 0 → env.isPointerValue (r.getOperand 0) = true →
      c1.calledFunction = some f → f.addr = r.parentFunction →
      c2.calledFunction = some g → g.addr ≠ r.parentFunction →
      collectReturnRuleCodes env r [(k1, c1), (k2, c2)] =
        ⟨[env.argPassRuleCode c1.addr (r.getOperand 0)], false⟩) := by
  have main : ∀ rg : List (TypeRef × CallInst),
      r.numOperands ≠ 0 → env.isPointerValue (r.getOperand 0) = true →
      collectReturnRuleCodes env r rg =
        ⟨(rg.filter fun b => propagatesTo r.parentFunction b.2).map
          (fun b => env.argPassRuleCode b.2.addr (r.getOperand 0)), false⟩ := by
    intro rg hn hp
    unfold collectReturnRuleCodes
    have hcond : (r.numOperands == 0 || !env.isPointerValue (r.getOperand 0)) = false := by
      simp [hn, hp]
    simp only [hcond, Bool.false_eq_true, if_false, collectReturnRuleCodes_body]
    exact forEach_put_if rg (fun b => propagatesTo r.parentFunction b.2)
      (fun b => env.argPassRuleCode b.2.addr (r.getOperand 0))
  refine ⟨?_, main range, ?_⟩
  · intro h
    unfold collectReturnRuleCodes
    rcases h with h | h
    · simp [h, Emission.empty]
    · simp [h, Emission.empty]
  · intro k1 k2 c1 c2 f g hn hp h1 hf h2 hg
    rw [main _ hn hp]
    simp [List.filter_cons, propagatesTo, h1, h2, hf, hg]

/-- C9, witness: the return of the pointer `33` inside `sampleF1`, with the
call sites `15` (a direct call of `sampleF1`), `17` (a direct call of
`sampleF2`) and `8` (an indirect call); and a return without operand. -/
theorem C9_return_propagation_witness :
    (sampleReturnVoid.numOperands = 0 ∧
      collectReturnRuleCodes sampleEnv sampleReturnVoid
        [(0, sampleCallF1), (0, sampleCallF2), (0, sampleIndirectCall)] = ⟨[], false⟩) ∧
    (sampleReturn.numOperands ≠ 0 ∧
      sampleEnv.isPointerValue (sampleReturn.getOperand 0) = true ∧
      collectReturnRuleCodes sampleEnv sampleReturn
        [(0, sampleCallF1), (0, sampleCallF2), (0, sampleIndirectCall)] =
        ⟨[⟨RCT_VAR_ASGN_VAR, 15, 33⟩, ⟨RCT_VAR_ASGN_VAR, 8, 33⟩], false⟩) ∧
    (sampleCallF1.calledFunction = some sampleF1 ∧
      sampleF1.addr = sampleReturn.parentFunction ∧
      sampleCallF2.calledFunction = some sampleF2 ∧
      sampleF2.addr ≠ sampleReturn.parentFunction ∧
      collectReturnRuleCodes sampleEnv sampleReturn [(0, sampleCallF1), (0, sampleCallF2)] =
        ⟨[⟨RCT_VAR_ASGN_VAR, 15, 33⟩], false⟩) :=
  ⟨⟨rfl, (C9_return_propagation sampleEnv sampleReturnVoid
      [(0, sampleCallF1), (0, sampleCallF2), (0, sampleIndirectCall)]).1 (Or.inl rfl)⟩,
   ⟨by decide, rfl, (C9_return_propagation sampleEnv sampleReturn
      [(0, sampleCallF1), (0, sampleCallF2), (0, sampleIndirectCall)]).2.1
        (by decide) rfl⟩,
   ⟨rfl, rfl, rfl, by decide, (C9_return_propagation sampleEnv sampleReturn []).2.2
      0 0 sampleCallF1 sampleCallF2 sampleF1 sampleF2 (by decide) rfl rfl rfl rfl (by decide)⟩⟩

/-- C10: argument passing. For every call `c` that is not inline assembly and
every target `f` that is neither memory management nor an allocation, the
rules of `collectCallRuleCodes c f` begin with exactly one rule
`argPassRuleCode (formal i, elimConstExpr (operand i of c))` for each index `i`
whose formal is pointer-valued, in increasing `i`, and have no rule for another
formal: these are the first `n` rules, with `n` the number of pointer-valued
formals, and at most one rule follows them, which is the rule
`RCT_VAR_ASGN_REF_VAR` of an unknown return value. -/
theorem C10_argument_passing (env : Env) (c : CallInst) (f : Function)
    (hasm : env.isInlineAssembly c.addr = false)
    (hman : env.memoryManStuff f.addr = false)
    (halloc : env.isMemoryAllocation f.addr = false) :
    (collectCallRuleCodes env c f).failed = false ∧
    (collectCallRuleCodes env c f).rules.take (f.args.countP env.isPointerValue) =
      (f.args.enum.filter fun fit => env.isPointerValue fit.2).map
        (fun fit => env.argPassRuleCode fit.2 (env.elimConstExpr (c.getOperand fit.1))) ∧
    ((f.args.enum.filter fun fit => env.isPointerValue fit.2).map
        (fun fit => env.argPassRuleCode fit.2
          (env.elimConstExpr (c.getOperand fit.1)))).length =
      f.args.countP env.isPointerValue ∧
    ((collectCallRuleCodes env c f).rules.drop (f.args.countP env.isPointerValue) = [] ∨
      (collectCallRuleCodes env c f).rules.drop (f.args.countP env.isPointerValue) =
        [⟨RCT_VAR_ASGN_REF_VAR, c.addr,
          env.undefValueGet (env.getPointedType f.returnType)⟩]) := by
  have hlen : ((f.args.enum.filter fun fit => env.isPointerValue fit.2).map
        (fun fit => env.argPassRuleCode fit.2
          (env.elimConstExpr (c.getOperand fit.1)))).length =
      f.args.countP env.isPointerValue := by
    rw [List.length_map, ← List.countP_eq_length_filter]
    have h : ∀ (l : List MemoryLocation) (n : Nat),
        List.countP (fun fit : Nat × MemoryLocation => env.isPointerValue fit.2)
          (l.enumFrom n) = List.countP env.isPointerValue l := by
      intro l
      induction l with
      | nil => intro n; rfl
      | cons a l ih =>
        intro n
        simp only [List.enumFrom_cons, List.countP_cons, ih (n + 1)]
    exact h f.args 0
  rw [collectCallRuleCodes_ordinary env c f hasm hman halloc]
  refine ⟨rfl, ?_, hlen, ?_⟩
  · rw [← hlen]
    simp
  · rw [← hlen]
    simp only [List.drop_left]
    split
    · exact Or.inr rfl
    · exact Or.inl rfl

/-- C10, witness: the indirect call `8`, whose operand `i` is at `30 + i`, and
the target `sampleF1`, whose formals `51` and `53` are pointer-valued and whose
formal `52` is not. -/
theorem C10_argument_passing_witness :
    sampleEnv.isInlineAssembly sampleIndirectCall.addr = false ∧
    sampleEnv.memoryManStuff sampleF1.addr = false ∧
    sampleEnv.isMemoryAllocation sampleF1.addr = false ∧
    sampleF1.args.countP sampleEnv.isPointerValue = 2 ∧
    (collectCallRuleCodes sampleEnv sampleIndirectCall sampleF1).rules.take 2 =
      [⟨RCT_VAR_ASGN_VAR, 51, 2⟩, ⟨RCT_VAR_ASGN_VAR, 53, 32⟩] :=
  ⟨rfl, rfl, rfl, rfl,
   (C10_argument_passing sampleEnv sampleIndirectCall sampleF1 rfl rfl rfl).2.1⟩

/-- C11: synthesized external return. For every call `c` that is not inline
assembly and every target `f` that is neither memory management nor an
allocation, `collectCallRuleCodes c f` returns, and its rules are the
argument-passing rules followed by exactly one further rule,
`RCT_VAR_ASGN_REF_VAR` with lvalue `c` and rvalue the `UndefValue` of the
pointed-to type of the return type of `f`, if `f` is a declaration and its
return type is a pointer type; otherwise its rules are the argument-passing
rules only. The further rule is present if and only if both conditions hold. -/
theorem C11_external_return (env : Env) (c : CallInst) (f : Function)
    (hasm : env.isInlineAssembly c.addr = false)
    (hman : env.memoryManStuff f.addr = false)
    (halloc : env.isMemoryAllocation f.addr = false) :
    (collectCallRuleCodes env c f).failed = false ∧
    (f.isDeclaration = true ∧ env.isPointerTy f.returnType = true →
      (collectCallRuleCodes env c f).rules =
        (f.args.enum.filter fun fit => env.isPointerValue fit.2).map
          (fun fit => env.argPassRuleCode fit.2 (env.elimConstExpr (c.getOperand fit.1))) ++
        [⟨RCT_VAR_ASGN_REF_VAR, c.addr,
          env.undefValueGet (env.getPointedType f.returnType)⟩]) ∧
    (¬ (f.isDeclaration = true ∧ env.isPointerTy f.returnType = true) →
      (collectCallRuleCodes env c f).rules =
        (f.args.enum.filter fun fit => env.isPointerValue fit.2).map
          (fun fit => env.argPassRuleCode fit.2 (env.elimConstExpr (c.getOperand fit.1)))) ∧
    ((collectCallRuleCodes env c f).rules.length =
        ((f.args.enum.filter fun fit => env.isPointerValue fit.2).map
          (fun fit => env.argPassRuleCode fit.2
            (env.elimConstExpr (c.getOperand fit.1)))).length + 1 ↔
      (f.isDeclaration = true ∧ env.isPointerTy f.returnType = true)) := by
  rw [collectCallRuleCodes_ordinary env c f hasm hman halloc]
  refine ⟨rfl, ?_, ?_, ?_⟩
  · intro h
    simp [h.1, h.2]
  · intro h
    have h2 : (f.isDeclaration && env.isPointerTy f.returnType) = false := by
      cases hd : f.isDeclaration <;> cases ht : env.isPointerTy f.returnType <;>
        simp_all
    simp [h2]
  · cases hd : f.isDeclaration <;> cases ht : env.isPointerTy f.returnType <;> simp

/-- C11, witness: the indirect call `8` with the target `sampleF2`, a
declaration that returns a pointer, and with the target `sampleF1`, which has a
body. -/
theorem C11_external_return_witness :
    (sampleEnv.isInlineAssembly sampleIndirectCall.addr = false ∧
      sampleEnv.memoryManStuff sampleF2.addr = false ∧
      sampleEnv.isMemoryAllocation sampleF2.addr = false ∧
      (sampleF2.isDeclaration = true ∧ sampleEnv.isPointerTy sampleF2.returnType = true) ∧
      (collectCallRuleCodes sampleEnv sampleIndirectCall sampleF2).rules =
        [⟨RCT_VAR_ASGN_VAR, 71, 2⟩, ⟨RCT_VAR_ASGN_REF_VAR, 8, 1002⟩]) ∧
    (sampleEnv.isInlineAssembly sampleIndirectCall.addr = false ∧
      sampleEnv.memoryManStuff sampleF1.addr = false ∧
      sampleEnv.isMemoryAllocation sampleF1.addr = false ∧
      ¬ (sampleF1.isDeclaration = true ∧ sampleEnv.isPointerTy sampleF1.returnType = true) ∧
      (collectCallRuleCodes sampleEnv sampleIndirectCall sampleF1).rules =
        [⟨RCT_VAR_ASGN_VAR, 51, 2⟩, ⟨RCT_VAR_ASGN_VAR, 53, 32⟩]) :=
  ⟨⟨rfl, rfl, rfl, ⟨rfl, rfl⟩,
    (C11_external_return sampleEnv sampleIndirectCall sampleF2 rfl rfl rfl).2.1 ⟨rfl, rfl⟩⟩,
   ⟨rfl, rfl, rfl, by decide,
    (C11_external_return sampleEnv sampleIndirectCall sampleF1 rfl rfl rfl).2.2.1
      (by decide)⟩⟩

/-- C12: deallocation emits no rule. For every call whose called value is
classified as a deallocation and not as an allocation, `toRuleCode` returns
with an empty sequence; and for every target `f` with `memoryManStuff f` that
is not an allocation, `collectCallRuleCodes c f` emits no rule, whatever `c`
is, and returns with an empty sequence when `c` is not inline assembly. In
particular no `RCT_DEALLOC` rule is emitted. -/
theorem C12_deallocation_no_rule (env : Env) (c : CallInst) (f : Function) :
    (env.isMemoryDeallocation c.calledValue = true →
      env.isMemoryAllocation c.calledValue = false →
      toRuleCode env (.CallInst c) = ⟨[], false⟩) ∧
    (env.memoryManStuff f.addr = true → env.isMemoryAllocation f.addr = false →
      (collectCallRuleCodes env c f).rules = [] ∧
      (env.isInlineAssembly c.addr = false → collectCallRuleCodes env c f = ⟨[], false⟩)) := by
  constructor
  · intro hd ha
    simp [toRuleCode, hd, ha]
    rfl
  · intro hm ha
    constructor
    · cases hasm : env.isInlineAssembly c.addr <;>
        simp [collectCallRuleCodes, hasm, hm, ha, Emission.empty, assertFailed]
    · intro hasm
      simp [collectCallRuleCodes, hasm, hm, ha, Emission.empty]

/-- C12, witness: the call `18` of the deallocation routine `21`, a
declaration with a pointer-valued formal that returns a pointer. -/
theorem C12_deallocation_no_rule_witness :
    (sampleEnv.isMemoryDeallocation sampleFreeCall.calledValue = true ∧
      sampleEnv.isMemoryAllocation sampleFreeCall.calledValue = false ∧
      toRuleCode sampleEnv (.CallInst sampleFreeCall) = ⟨[], false⟩) ∧
    (sampleEnv.memoryManStuff sampleFree.addr = true ∧
      sampleEnv.isMemoryAllocation sampleFree.addr = false ∧
      sampleEnv.isInlineAssembly sampleFreeCall.addr = false ∧
      collectCallRuleCodes sampleEnv sampleFreeCall sampleFree = ⟨[], false⟩) :=
  ⟨⟨rfl, rfl, (C12_deallocation_no_rule sampleEnv sampleFreeCall sampleFree).1 rfl rfl⟩,
   ⟨rfl, rfl, rfl,
    ((C12_deallocation_no_rule sampleEnv sampleFreeCall sampleFree).2 rfl rfl).2 rfl⟩⟩

/-- C13, counterexample: the inline-assembly call `40` has no direct callee;
with an empty candidate range the range overload processes no target, so that
no assertion is evaluated: it returns, without rule and without failure. -/
theorem C13_counterexample :
    sampleEnv.isInlineAssembly sampleAsmCall.addr = true ∧
    collectCallRuleCodesRange sampleEnv sampleAsmCall [] = ⟨[], false⟩ ∧
    (collectCallRuleCodesRange sampleEnv sampleAsmCall []).failed ≠ true := by
  decide

/-- C13, amended: for every call `c` with `isInlineAssembly c`, the derivation
for a single target `f` is stopped by the assertion without any rule, whatever
`f` is; the derivation for a candidate range is stopped by the assertion
without any rule whenever it processes a target, that is when `c` has a direct
callee or the range is not empty; and whatever the range is, no rule is
emitted. -/
theorem C13_inline_assembly (env : Env) (c : CallInst) (f : Function)
    (range : List (TypeRef × Function))
    (hasm : env.isInlineAssembly c.addr = true) :
    collectCallRuleCodes env c f = ⟨[], true⟩ ∧
    (c.calledFunction ≠ none ∨ range ≠ [] →
      collectCallRuleCodesRange env c range = ⟨[], true⟩) ∧
    (collectCallRuleCodesRange env c range).rules = [] := by
  have hall : ∀ rg : List (TypeRef × Function),
      ∀ b ∈ rg, collectCallRuleCodes env c b.2 = assertFailed :=
    fun _ b _ => collectCallRuleCodes_inlineAssembly env c b.2 hasm
  refine ⟨collectCallRuleCodes_inlineAssembly env c f hasm, ?_, ?_⟩
  · intro h
    unfold collectCallRuleCodesRange
    cases hc : c.calledFunction with
    | some g => exact collectCallRuleCodes_inlineAssembly env c g hasm
    | none =>
      have hne : range ≠ [] := by
        rcases h with h | h
        · exact absurd hc h
        · exact h
      simp only []
      rw [forEach_stopped range _ (hall range)]
      cases range with
      | nil => exact absurd rfl hne
      | cons b rest => rfl
  · unfold collectCallRuleCodesRange
    cases hc : c.calledFunction with
    | some g =>
      simp only []
      rw [collectCallRuleCodes_inlineAssembly env c g hasm]
      rfl
    | none =>
      simp only []
      rw [forEach_stopped range _ (hall range)]

/-- C13, witness: the inline-assembly call `40` with the target `sampleF1` and
with the candidate range of `sampleF1` and `sampleF2`. -/
theorem C13_inline_assembly_witness :
    sampleEnv.isInlineAssembly sampleAsmCall.addr = true ∧
    collectCallRuleCodes sampleEnv sampleAsmCall sampleF1 = ⟨[], true⟩ ∧
    ((sampleAsmCall.calledFunction ≠ none ∨
        [((0 : TypeRef), sampleF1), (0, sampleF2)] ≠ []) ∧
      collectCallRuleCodesRange sampleEnv sampleAsmCall [(0, sampleF1), (0, sampleF2)] =
        ⟨[], true⟩) :=
  ⟨rfl,
   (C13_inline_assembly sampleEnv sampleAsmCall sampleF1 [(0, sampleF1), (0, sampleF2)] rfl).1,
   ⟨Or.inr (by simp),
    (C13_inline_assembly sampleEnv sampleAsmCall sampleF1 [(0, sampleF1), (0, sampleF2)]
      rfl).2.1 (Or.inr (by simp))⟩⟩

/-! ## Translation of one value: further claims -/

/-- C14: unmodeled constructs yield nothing. `toRuleCode` returns with an
empty sequence for every value that is neither an instruction nor a global
variable, for every instruction of a class that its chain of tests does not
name, a return instruction included, and for every call whose called value is
classified as none of allocation, deallocation, copy and move. -/
theorem C14_unmodeled_constructs (env : Env) (a : MemoryLocation) (r : ReturnInst)
    (c : CallInst) :
    toRuleCode env (.otherValue a) = ⟨[], false⟩ ∧
    toRuleCode env (.otherInstruction a) = ⟨[], false⟩ ∧
    toRuleCode env (.ReturnInst r) = ⟨[], false⟩ ∧
    (env.isMemoryAllocation c.calledValue = false →
      env.isMemoryDeallocation c.calledValue = false →
      env.isMemoryCopy c.calledValue = false →
      env.isMemoryMove c.calledValue = false →
      toRuleCode env (.CallInst c) = ⟨[], false⟩) := by
  refine ⟨rfl, rfl, rfl, ?_⟩
  intro h1 h2 h3 h4
  simp [toRuleCode, h1, h2, h3, h4]
  rfl

/-- C14, witness: the direct call `15` of `sampleF1`, a function of no memory
class. -/
theorem C14_unmodeled_constructs_witness :
    sampleEnv.isMemoryAllocation sampleCallF1.calledValue = false ∧
    sampleEnv.isMemoryDeallocation sampleCallF1.calledValue = false ∧
    sampleEnv.isMemoryCopy sampleCallF1.calledValue = false ∧
    sampleEnv.isMemoryMove sampleCallF1.calledValue = false ∧
    toRuleCode sampleEnv (.CallInst sampleCallF1) = ⟨[], false⟩ ∧
    toRuleCode sampleEnv sampleReturnValue = ⟨[], false⟩ :=
  ⟨rfl, rfl, rfl, rfl,
   (C14_unmodeled_constructs sampleEnv 0 sampleReturn sampleCallF1).2.2.2 rfl rfl rfl rfl,
   (C14_unmodeled_constructs sampleEnv 0 sampleReturn sampleCallF1).2.2.1⟩

/-- C15: pointer-preserving cast and address computation. For every bitcast
`x` with operand `0` equal to `o` and every getelementptr `x` with pointer
operand `o`, with `op = elimConstExpr o`, `toRuleCode` emits exactly one rule:
`RCT_VAR_ASGN_REF_VAR (x, op)` when `hasExtraReference op`, and
`RCT_VAR_ASGN_VAR (x, op)` when not; the two kinds of instruction translate
identically. -/
theorem C15_cast_and_address (env : Env) (x o : MemoryLocation) :
    (env.hasExtraReference (env.elimConstExpr o) = true →
      toRuleCode env (.BitCastInst x o) =
        ⟨[⟨RCT_VAR_ASGN_REF_VAR, x, env.elimConstExpr o⟩], false⟩ ∧
      toRuleCode env (.GetElementPtrInst x o) =
        ⟨[⟨RCT_VAR_ASGN_REF_VAR, x, env.elimConstExpr o⟩], false⟩) ∧
    (env.hasExtraReference (env.elimConstExpr o) = false →
      toRuleCode env (.BitCastInst x o) =
        ⟨[⟨RCT_VAR_ASGN_VAR, x, env.elimConstExpr o⟩], false⟩ ∧
      toRuleCode env (.GetElementPtrInst x o) =
        ⟨[⟨RCT_VAR_ASGN_VAR, x, env.elimConstExpr o⟩], false⟩) ∧
    toRuleCode env (.BitCastInst x o) = toRuleCode env (.GetElementPtrInst x o) := by
  refine ⟨?_, ?_, rfl⟩ <;> intro h <;> simp [toRuleCode, h]

/-- C15, witness: a bitcast and a getelementptr of the constant expression
`30` over the location `2`, which has an extra reference, and of the plain
location `3`. -/
theorem C15_cast_and_address_witness :
    (sampleEnv.hasExtraReference (sampleEnv.elimConstExpr 30) = true ∧
      toRuleCode sampleEnv (.BitCastInst 10 30) = ⟨[⟨RCT_VAR_ASGN_REF_VAR, 10, 2⟩], false⟩ ∧
      toRuleCode sampleEnv (.GetElementPtrInst 10 30) =
        ⟨[⟨RCT_VAR_ASGN_REF_VAR, 10, 2⟩], false⟩) ∧
    (sampleEnv.hasExtraReference (sampleEnv.elimConstExpr 3) = false ∧
      toRuleCode sampleEnv (.BitCastInst 11 3) = ⟨[⟨RCT_VAR_ASGN_VAR, 11, 3⟩], false⟩ ∧
      toRuleCode sampleEnv (.GetElementPtrInst 11 3) = ⟨[⟨RCT_VAR_ASGN_VAR, 11, 3⟩], false⟩) :=
  ⟨⟨rfl, (C15_cast_and_address sampleEnv 10 30).1 rfl⟩,
   ⟨rfl, (C15_cast_and_address sampleEnv 11 3).2.1 rfl⟩⟩

/-- C16: insert-aggregate-field. For every insertvalue `x` with aggregate
operand `l` and inserted value `r`: when `hasExtraReference l` is false,
`toRuleCode` emits exactly one rule, with lvalue `l` (not `x`) and rvalue `r`,
of type `RCT_VAR_ASGN_REF_VAR` if `hasExtraReference r`, else
`RCT_VAR_ASGN_NULL` if `r` is a literal null pointer, else `RCT_VAR_ASGN_VAR`;
when `hasExtraReference l` is true the assertion stops the translation and no
rule is emitted. Neither operand goes through `elimConstExpr`. -/
theorem C16_insert_value (env : Env) (x l r : MemoryLocation) :
    (env.hasExtraReference l = false → env.hasExtraReference r = true →
      toRuleCode env (.InsertValueInst x l r) = ⟨[⟨RCT_VAR_ASGN_REF_VAR, l, r⟩], false⟩) ∧
    (env.hasExtraReference l = false → env.hasExtraReference r = false →
      env.isConstantPointerNull r = true →
      toRuleCode env (.InsertValueInst x l r) = ⟨[⟨RCT_VAR_ASGN_NULL, l, r⟩], false⟩) ∧
    (env.hasExtraReference l = false → env.hasExtraReference r = false →
      env.isConstantPointerNull r = false →
      toRuleCode env (.InsertValueInst x l r) = ⟨[⟨RCT_VAR_ASGN_VAR, l, r⟩], false⟩) ∧
    (env.hasExtraReference l = true →
      toRuleCode env (.InsertValueInst x l r) = ⟨[], true⟩) := by
  refine ⟨?_, ?_, ?_, ?_⟩
  · intro hl hr
    simp [toRuleCode, hl, hr]
  · intro hl hr hn
    simp [toRuleCode, hl, hr, hn]
  · intro hl hr hn
    simp [toRuleCode, hl, hr, hn]
  · intro hl
    simp [toRuleCode, hl, assertFailed]

/-- C16, witness: insertvalue instructions at `16` into the aggregate `4`, of
the location `2` (extra reference), of the null pointer `1` and of the plain
value `3`; and one into the location `2`, on which the assertion fails. -/
theorem C16_insert_value_witness :
    (sampleEnv.hasExtraReference 4 = false ∧ sampleEnv.hasExtraReference 2 = true ∧
      toRuleCode sampleEnv (.InsertValueInst 16 4 2) =
        ⟨[⟨RCT_VAR_ASGN_REF_VAR, 4, 2⟩], false⟩) ∧
    (sampleEnv.hasExtraReference 1 = false ∧ sampleEnv.isConstantPointerNull 1 = true ∧
      toRuleCode sampleEnv (.InsertValueInst 16 4 1) = ⟨[⟨RCT_VAR_ASGN_NULL, 4, 1⟩], false⟩) ∧
    (sampleEnv.hasExtraReference 3 = false ∧ sampleEnv.isConstantPointerNull 3 = false ∧
      toRuleCode sampleEnv (.InsertValueInst 16 4 3) = ⟨[⟨RCT_VAR_ASGN_VAR, 4, 3⟩], false⟩) ∧
    (sampleEnv.hasExtraReference 2 = true ∧
      toRuleCode sampleEnv (.InsertValueInst 16 2 3) = ⟨[], true⟩) :=
  ⟨⟨rfl, rfl, (C16_insert_value sampleEnv 16 4 2).1 rfl rfl⟩,
   ⟨rfl, rfl, (C16_insert_value sampleEnv 16 4 1).2.1 rfl rfl rfl⟩,
   ⟨rfl, rfl, (C16_insert_value sampleEnv 16 4 3).2.2.1 rfl rfl rfl⟩,
   ⟨rfl, (C16_insert_value sampleEnv 16 2 3).2.2.2 rfl⟩⟩

/-- C17: extract-aggregate-field precondition. For every extractvalue `x` with
aggregate operand `op`: if `hasExtraReference op` is false, `toRuleCode`
returns with exactly one rule, `RCT_VAR_ASGN_VAR (x, op)`; if it is true, the
assertion stops the translation and no rule is emitted. So the translation is
stopped exactly when the precondition is violated. -/
theorem C17_extract_value (env : Env) (x op : MemoryLocation) :
    (env.hasExtraReference op = false →
      toRuleCode env (.ExtractValueInst x op) = ⟨[⟨RCT_VAR_ASGN_VAR, x, op⟩], false⟩) ∧
    (env.hasExtraReference op = true →
      toRuleCode env (.ExtractValueInst x op) = ⟨[], true⟩) ∧
    ((toRuleCode env (.ExtractValueInst x op)).failed = true ↔
      env.hasExtraReference op = true) := by
  refine ⟨?_, ?_, ?_⟩
  · intro h
    simp [toRuleCode, h]
  · intro h
    simp [toRuleCode, h, assertFailed]
  · cases h : env.hasExtraReference op <;> simp [toRuleCode, h, assertFailed]

/-- C17, witness: an extractvalue of the plain aggregate `4` and one of the
location `2`, which has an extra reference. -/
theorem C17_extract_value_witness :
    (sampleEnv.hasExtraReference 4 = false ∧
      toRuleCode sampleEnv (.ExtractValueInst 16 4) = ⟨[⟨RCT_VAR_ASGN_VAR, 16, 4⟩], false⟩) ∧
    (sampleEnv.hasExtraReference 2 = true ∧
      toRuleCode sampleEnv (.ExtractValueInst 16 2) = ⟨[], true⟩) :=
  ⟨⟨rfl, (C17_extract_value sampleEnv 16 4).1 rfl⟩,
   ⟨rfl, (C17_extract_value sampleEnv 16 2).2.1 rfl⟩⟩

/-- C18: store case split. For every store with `l = elimConstExpr` of its
pointer operand and `r = elimConstExpr` of its value operand, `toRuleCode`
emits exactly one rule, with lvalue `l` and rvalue `r`, whatever the address of
the store itself is. The left side is dereferenced exactly when
`hasExtraReference l` is false; the right side is `&r` when
`hasExtraReference r` is true (also when `r` is a literal null pointer),
otherwise null when `r` is a literal null pointer, otherwise plain `r`. This
gives the six types `RCT_DREF_VAR_ASGN_REF_VAR`, `RCT_DREF_VAR_ASGN_NULL`,
`RCT_DREF_VAR_ASGN_VAR`, `RCT_VAR_ASGN_REF_VAR`, `RCT_VAR_ASGN_NULL` and
`RCT_VAR_ASGN_VAR`. -/
theorem C18_store_case_split (env : Env) (s v q : MemoryLocation) :
    (env.hasExtraReference (env.elimConstExpr q) = false →
      env.hasExtraReference (env.elimConstExpr v) = true →
      toRuleCode env (.StoreInst s v q) =
        ⟨[⟨RCT_DREF_VAR_ASGN_REF_VAR, env.elimConstExpr q, env.elimConstExpr v⟩], false⟩) ∧
    (env.hasExtraReference (env.elimConstExpr q) = false →
      env.hasExtraReference (env.elimConstExpr v) = false →
      env.isConstantPointerNull (env.elimConstExpr v) = true →
      toRuleCode env (.StoreInst s v q) =
        ⟨[⟨RCT_DREF_VAR_ASGN_NULL, env.elimConstExpr q, env.elimConstExpr v⟩], false⟩) ∧
    (env.hasExtraReference (env.elimConstExpr q) = false →
      env.hasExtraReference (env.elimConstExpr v) = false →
      env.isConstantPointerNull (env.elimConstExpr v) = false →
      toRuleCode env (.StoreInst s v q) =
        ⟨[⟨RCT_DREF_VAR_ASGN_VAR, env.elimConstExpr q, env.elimConstExpr v⟩], false⟩) ∧
    (env.hasExtraReference (env.elimConstExpr q) = true →
      env.hasExtraReference (env.elimConstExpr v) = true →
      toRuleCode env (.StoreInst s v q) =
        ⟨[⟨RCT_VAR_ASGN_REF_VAR, env.elimConstExpr q, env.elimConstExpr v⟩], false⟩) ∧
    (env.hasExtraReference (env.elimConstExpr q) = true →
      env.hasExtraReference (env.elimConstExpr v) = false →
      env.isConstantPointerNull (env.elimConstExpr v) = true →
      toRuleCode env (.StoreInst s v q) =
        ⟨[⟨RCT_VAR_ASGN_NULL, env.elimConstExpr q, env.elimConstExpr v⟩], false⟩) ∧
    (env.hasExtraReference (env.elimConstExpr q) = true →
      env.hasExtraReference (env.elimConstExpr v) = false →
      env.isConstantPointerNull (env.elimConstExpr v) = false →
      toRuleCode env (.StoreInst s v q) =
        ⟨[⟨RCT_VAR_ASGN_VAR, env.elimConstExpr q, env.elimConstExpr v⟩], false⟩) ∧
    (∀ s2 : MemoryLocation,
      toRuleCode env (.StoreInst s2 v q) = toRuleCode env (.StoreInst s v q)) := by
  refine ⟨?_, ?_, ?_, ?_, ?_, ?_, fun _ => rfl⟩
  · intro hl hr
    simp [toRuleCode, hl, hr]
  · intro hl hr hn
    simp [toRuleCode, hl, hr, hn]
  · intro hl hr hn
    simp [toRuleCode, hl, hr, hn]
  · intro hl hr
    simp [toRuleCode, hl, hr]
  · intro hl hr hn
    simp [toRuleCode, hl, hr, hn]
  · intro hl hr hn
    simp [toRuleCode, hl, hr, hn]

/-- C18, witness: stores at `12` through the plain location `3` and through
the constant expression `30` over the location `2` (extra reference), of the
constant expression `30`, of the null pointer `1` and of the plain value `5`;
and a store of the null pointer in a host where it has an extra reference. -/
theorem C18_store_case_split_witness :
    toRuleCode sampleEnv (.StoreInst 12 30 3) = ⟨[⟨RCT_DREF_VAR_ASGN_REF_VAR, 3, 2⟩], false⟩ ∧
    toRuleCode sampleEnv (.StoreInst 12 1 3) = ⟨[⟨RCT_DREF_VAR_ASGN_NULL, 3, 1⟩], false⟩ ∧
    toRuleCode sampleEnv (.StoreInst 12 5 3) = ⟨[⟨RCT_DREF_VAR_ASGN_VAR, 3, 5⟩], false⟩ ∧
    toRuleCode sampleEnv (.StoreInst 12 30 30) = ⟨[⟨RCT_VAR_ASGN_REF_VAR, 2, 2⟩], false⟩ ∧
    toRuleCode sampleEnv (.StoreInst 12 1 30) = ⟨[⟨RCT_VAR_ASGN_NULL, 2, 1⟩], false⟩ ∧
    toRuleCode sampleEnv (.StoreInst 12 5 30) = ⟨[⟨RCT_VAR_ASGN_VAR, 2, 5⟩], false⟩ ∧
    (sampleEnvNullExtra.isConstantPointerNull (sampleEnvNullExtra.elimConstExpr 1) = true ∧
      sampleEnvNullExtra.hasExtraReference (sampleEnvNullExtra.elimConstExpr 1) = true ∧
      toRuleCode sampleEnvNullExtra (.StoreInst 12 1 3) =
        ⟨[⟨RCT_DREF_VAR_ASGN_REF_VAR, 3, 1⟩], false⟩) :=
  ⟨(C18_store_case_split sampleEnv 12 30 3).1 rfl rfl,
   (C18_store_case_split sampleEnv 12 1 3).2.1 rfl rfl rfl,
   (C18_store_case_split sampleEnv 12 5 3).2.2.1 rfl rfl rfl,
   (C18_store_case_split sampleEnv 12 30 30).2.2.2.1 rfl rfl,
   (C18_store_case_split sampleEnv 12 1 30).2.2.2.2.1 rfl rfl rfl,
   (C18_store_case_split sampleEnv 12 5 30).2.2.2.2.2.1 rfl rfl rfl,
   ⟨rfl, rfl, (C18_store_case_split sampleEnvNullExtra 12 1 3).1 rfl rfl⟩⟩

/-! ## The canonical forms -/

/-- A sort with a `RuleCode` constructor is one of the tabulated shapes, and
the rule constructed has a type other than `RCT_UNKNOWN`. -/
theorem construct_shape (s : ExprSort) (rc : RuleCode) (h : RuleCode.construct s = some rc) :
    isTabulatedShape ⟨s⟩ ∧ rc.type ≠ RCT_UNKNOWN := by
  unfold RuleCode.construct at h
  split at h <;> cases h <;> refine ⟨?_, by simp⟩ <;>
    simp [isTabulatedShape, opAssign, makeAssignment, getSort, opRef, opDeref, ruleVar,
      ruleAllocSite, ruleNull, ruleDeallocSite]

/-- An assignment with a `RuleCode` constructor has no assignment inside its
sides. -/
theorem construct_assignment_flat (a b : ExprSort) (rc : RuleCode)
    (h : RuleCode.construct (.ASSIGNMENT a b) = some rc) :
    a.containsAssignment = false ∧ b.containsAssignment = false := by
  unfold RuleCode.construct at h
  split at h <;> first
    | (cases h; done)
    | (rename_i heq; cases heq <;> exact ⟨rfl, rfl⟩)

/-- Each tabulated shape has a `RuleCode` constructor. -/
theorem construct_of_shape (E : RuleExpression) (h : isTabulatedShape E) :
    (ruleCode E).isSome = true := by
  rcases h with ⟨l, r, h⟩ | ⟨l, h⟩
  · rcases h with h | h | h | h | h | h | h | h | h <;> subst h <;> rfl
  · subst h; rfl

/-- A sort that is not a tabulated shape has no `RuleCode` constructor. -/
theorem construct_none_of_not_shape (s : ExprSort) (h : ¬ isTabulatedShape ⟨s⟩) :
    RuleCode.construct s = none := by
  cases hc : RuleCode.construct s with
  | none => rfl
  | some rc => exact absurd (construct_shape s rc hc).1 h

/-- C19: the canonical forms are exactly the tabulated shapes. For every
expression `E`, `ruleCode E` is defined if and only if `E` is one of the nine
assignment shapes of the table or a bare deallocation site, and a rule that
`ruleCode` produces never has type `RCT_UNKNOWN`. In particular there is no
rule for a reference of a reference, for an assignment of two allocation
sites, for an assignment whose left side is a reference, an allocation site, a
null site or a deallocation site, for `*var := alloc`, for `var := dealloc`,
for a bare variable, allocation site or null site, nor for an assignment that
has an assignment anywhere inside one of its sides. -/
theorem C19_canonical_forms (E x y : RuleExpression) (l r : MemoryLocation) :
    ((ruleCode E).isSome = true ↔ isTabulatedShape E) ∧
    (∀ rc : RuleCode, ruleCode E = some rc → rc.getType ≠ RCT_UNKNOWN) ∧
    ruleCode (opRef (opRef x)) = none ∧
    ruleCode (opAssign (ruleAllocSite l) (ruleAllocSite r)) = none ∧
    ruleCode (opAssign (opRef x) y) = none ∧
    ruleCode (opAssign (ruleAllocSite l) y) = none ∧
    ruleCode (opAssign (ruleNull l) y) = none ∧
    ruleCode (opAssign (ruleDeallocSite l) y) = none ∧
    ruleCode (opAssign (opDeref (ruleVar l)) (ruleAllocSite r)) = none ∧
    ruleCode (opAssign (ruleVar l) (ruleDeallocSite r)) = none ∧
    ruleCode (ruleVar l) = none ∧
    ruleCode (ruleAllocSite l) = none ∧
    ruleCode (ruleNull l) = none ∧
    (x.sort.containsAssignment = true ∨ y.sort.containsAssignment = true →
      ruleCode (opAssign x y) = none) := by
  refine ⟨⟨?_, construct_of_shape E⟩, ?_, ?_, rfl, ?_, ?_, ?_, ?_, rfl, rfl, rfl, rfl, rfl, ?_⟩
  · intro h
    cases hc : ruleCode E with
    | none => rw [hc] at h; exact absurd h (by simp)
    | some rc => exact (construct_shape E.sort rc hc).1
  · intro rc hc
    exact (construct_shape E.sort rc hc).2
  all_goals first
    | (apply construct_none_of_not_shape
       simp [isTabulatedShape, opAssign, makeAssignment, getSort, opRef, opDeref, ruleVar,
         ruleAllocSite, ruleNull, ruleDeallocSite])
    | skip
  intro h
  cases hc : ruleCode (opAssign x y) with
  | none => rfl
  | some rc =>
    have hf := construct_assignment_flat x.sort y.sort rc hc
    rcases h with h | h
    · rw [hf.1] at h; exact absurd h (by simp)
    · rw [hf.2] at h; exact absurd h (by simp)

/-- C19, witness: `*1 := &2` is a tabulated shape and has a rule; an
assignment whose left side is a reference of an assignment has none. -/
theorem C19_canonical_forms_witness :
    (isTabulatedShape (opAssign (opDeref (ruleVar 1)) (opRef (ruleVar 2))) ∧
      (ruleCode (opAssign (opDeref (ruleVar 1)) (opRef (ruleVar 2)))).isSome = true) ∧
    ((opRef (opAssign (ruleVar 1) (ruleVar 2))).sort.containsAssignment = true ∧
      ruleCode (opAssign (opRef (opAssign (ruleVar 1) (ruleVar 2))) (ruleVar 3)) = none) :=
  ⟨⟨Or.inl ⟨1, 2, Or.inr (Or.inr (Or.inr (Or.inr (Or.inr (Or.inr (Or.inr (Or.inl rfl)))))))⟩,
    (C19_canonical_forms (opAssign (opDeref (ruleVar 1)) (opRef (ruleVar 2)))
      (ruleVar 0) (ruleVar 0) 0 0).1.2
      (Or.inl ⟨1, 2,
        Or.inr (Or.inr (Or.inr (Or.inr (Or.inr (Or.inr (Or.inr (Or.inl rfl)))))))⟩)⟩,
   ⟨rfl, (C19_canonical_forms (ruleVar 0) (opRef (opAssign (ruleVar 1) (ruleVar 2)))
      (ruleVar 3) 0 0).2.2.2.2.2.2.2.2.2.2.2.2.2 (Or.inl rfl)⟩⟩

/-- C20: memory copy and move calls. For every call `c` whose called value is
classified as memory copy or memory move and as neither allocation nor
deallocation, `toRuleCode` emits exactly one rule,
`RCT_DREF_VAR_ASGN_DREF_VAR` with lvalue `elimConstExpr (argument 0)` and
rvalue `elimConstExpr (argument 1)`. When the called value is classified as an
allocation, the only rule is the allocation rule; when it is classified as a
deallocation and not as an allocation, there is no rule: in both cases the
copy rule is not emitted. -/
theorem C20_copy_move (env : Env) (c : CallInst) :
    (env.isMemoryCopy c.calledValue = true ∨ env.isMemoryMove c.calledValue = true →
      env.isMemoryAllocation c.calledValue = false →
      env.isMemoryDeallocation c.calledValue = false →
      toRuleCode env (.CallInst c) =
        ⟨[⟨RCT_DREF_VAR_ASGN_DREF_VAR, env.elimConstExpr (c.getArgOperand 0),
          env.elimConstExpr (c.getArgOperand 1)⟩], false⟩) ∧
    (env.isMemoryAllocation c.calledValue = true →
      toRuleCode env (.CallInst c) = ⟨[⟨RCT_VAR_ASGN_ALLOC, c.addr, c.addr⟩], false⟩) ∧
    (env.isMemoryAllocation c.calledValue = false →
      env.isMemoryDeallocation c.calledValue = true →
      toRuleCode env (.CallInst c) = ⟨[], false⟩) := by
  refine ⟨?_, ?_, ?_⟩
  · intro hcm ha hd
    rcases hcm with h | h
    · simp [toRuleCode, h, ha, hd]
    · simp [toRuleCode, h, ha, hd]
  · intro ha
    simp [toRuleCode, ha]
  · intro ha hd
    simp [toRuleCode, ha, hd]
    rfl

/-- C20, witness: the call `19` of the copy routine and the call `27` of the
move routine, with arguments `30` (a constant expression over `2`) and `31`;
and, in a host that classifies the allocation routine `20` and the
deallocation routine `21` as copy routines too, the calls `7` and `18`. -/
theorem C20_copy_move_witness :
    (sampleEnv.isMemoryCopy sampleCopyCall.calledValue = true ∧
      toRuleCode sampleEnv (.CallInst sampleCopyCall) =
        ⟨[⟨RCT_DREF_VAR_ASGN_DREF_VAR, 2, 31⟩], false⟩) ∧
    (sampleEnv.isMemoryMove sampleMoveCall.calledValue = true ∧
      toRuleCode sampleEnv (.CallInst sampleMoveCall) =
        ⟨[⟨RCT_DREF_VAR_ASGN_DREF_VAR, 2, 31⟩], false⟩) ∧
    (sampleEnvOverlap.isMemoryCopy sampleMallocCall.calledValue = true ∧
      sampleEnvOverlap.isMemoryAllocation sampleMallocCall.calledValue = true ∧
      toRuleCode sampleEnvOverlap (.CallInst sampleMallocCall) =
        ⟨[⟨RCT_VAR_ASGN_ALLOC, 7, 7⟩], false⟩) ∧
    (sampleEnvOverlap.isMemoryCopy sampleFreeCall.calledValue = true ∧
      sampleEnvOverlap.isMemoryDeallocation sampleFreeCall.calledValue = true ∧
      toRuleCode sampleEnvOverlap (.CallInst sampleFreeCall) = ⟨[], false⟩) :=
  ⟨⟨rfl, (C20_copy_move sampleEnv sampleCopyCall).1 (Or.inl rfl) rfl rfl⟩,
   ⟨rfl, (C20_copy_move sampleEnv sampleMoveCall).1 (Or.inr rfl) rfl rfl⟩,
   ⟨rfl, rfl, (C20_copy_move sampleEnvOverlap sampleMallocCall).2.1 rfl⟩,
   ⟨rfl, rfl, (C20_copy_move sampleEnvOverlap sampleFreeCall).2.2 rfl rfl⟩⟩

/-! ## Expansion of a rule code: the claims -/

/-- Expanding the rule of an expression inserts that expression. -/
theorem getRulesOfCommand_ruleCode {ρ : Type} (insert : ρ → RuleExpression → ρ) (R : ρ)
    (E : RuleExpression) (rc : RuleCode) (h : ruleCode E = some rc) :
    getRulesOfCommand insert rc R = insert R E := by
  rcases E with ⟨s⟩
  simp only [ruleCode, getSort] at h
  unfold RuleCode.construct at h
  split at h <;> cases h <;> rfl

/-- The expression that the expansion of a rule code of known type inserts,
and its rule. -/
theorem getRulesOfCommand_known (RC : RuleCode) (h : RC.getType ≠ RCT_UNKNOWN) :
    ∃ (X : RuleExpression) (rc : RuleCode),
      (∀ (σ : Type) (ins : σ → RuleExpression → σ) (S : σ),
        getRulesOfCommand ins RC S = ins S X) ∧
      ruleCode X = some rc ∧ rc.getType = RC.getType ∧ rc.getLvalue = RC.getLvalue ∧
      (RC.getType ≠ RCT_DEALLOC → rc.getRvalue = RC.getRvalue) := by
  rcases RC with ⟨t, l, r⟩
  cases t
  case RCT_UNKNOWN => exact absurd rfl h
  case RCT_DEALLOC =>
    exact ⟨ruleDeallocSite l, ⟨RCT_DEALLOC, l, nullPtr⟩, fun _ _ _ => rfl, rfl, rfl, rfl,
      fun hne => absurd rfl hne⟩
  all_goals exact ⟨_, ⟨_, l, r⟩, fun _ _ _ => rfl, rfl, rfl, rfl, fun _ => rfl⟩

/-- C21: canonicalize / expand round trip. For every expression `E` on which
`ruleCode` is defined, `getRulesOfCommand (ruleCode E, R)` makes exactly one
insertion into `R`, of `E` itself, so that `ruleCode` is injective where it is
defined. Conversely, for every rule code `RC` of type other than `RCT_UNKNOWN`
the expression `X` that `getRulesOfCommand` inserts has a rule of the type and
lvalue of `RC`, and of the rvalue of `RC` unless the type is `RCT_DEALLOC`. For
a default-constructed rule code, of type `RCT_UNKNOWN`, nothing is inserted. -/
theorem C21_round_trip {ρ : Type} (insert : ρ → RuleExpression → ρ) (R : ρ)
    (E E2 : RuleExpression) (RC : RuleCode) (l r : MemoryLocation) :
    (∀ rc : RuleCode, ruleCode E = some rc → getRulesOfCommand insert rc R = insert R E) ∧
    (∀ rc : RuleCode, ruleCode E = some rc → ∀ Q : List RuleExpression,
      getRulesOfCommand recordInsert rc Q = Q ++ [E]) ∧
    (∀ rc : RuleCode, ruleCode E = some rc → ruleCode E2 = some rc → E = E2) ∧
    (RC.getType ≠ RCT_UNKNOWN →
      ∃ (X : RuleExpression) (rc : RuleCode),
        (∀ (σ : Type) (ins : σ → RuleExpression → σ) (S : σ),
          getRulesOfCommand ins RC S = ins S X) ∧
        ruleCode X = some rc ∧ rc.getType = RC.getType ∧ rc.getLvalue = RC.getLvalue ∧
        (RC.getType ≠ RCT_DEALLOC → rc.getRvalue = RC.getRvalue)) ∧
    getRulesOfCommand insert (RuleCode.unknown l r) R = R := by
  refine ⟨fun rc h => getRulesOfCommand_ruleCode insert R E rc h,
    fun rc h Q => getRulesOfCommand_ruleCode recordInsert Q E rc h, ?_,
    getRulesOfCommand_known RC, rfl⟩
  intro rc h1 h2
  have e1 := getRulesOfCommand_ruleCode recordInsert [] E rc h1
  have e2 := getRulesOfCommand_ruleCode recordInsert [] E2 rc h2
  rw [e1] at e2
  simpa [recordInsert] using e2

/-- C21, witness: the expression `*1 := &2` and its rule; the rule code
`RCT_DEALLOC (5, 6)`, whose expansion is the deallocation site `5`, with a rule
of rvalue `0`. -/
theorem C21_round_trip_witness :
    (ruleCode (opAssign (opDeref (ruleVar 1)) (opRef (ruleVar 2))) =
        some ⟨RCT_DREF_VAR_ASGN_REF_VAR, 1, 2⟩ ∧
      getRulesOfCommand recordInsert ⟨RCT_DREF_VAR_ASGN_REF_VAR, 1, 2⟩ [] =
        [opAssign (opDeref (ruleVar 1)) (opRef (ruleVar 2))]) ∧
    ((⟨RCT_DEALLOC, 5, 6⟩ : RuleCode).getType ≠ RCT_UNKNOWN ∧
      ∃ (X : RuleExpression) (rc : RuleCode),
        (∀ (σ : Type) (ins : σ → RuleExpression → σ) (S : σ),
          getRulesOfCommand ins ⟨RCT_DEALLOC, 5, 6⟩ S = ins S X) ∧
        ruleCode X = some rc ∧ rc.getType = RCT_DEALLOC ∧ rc.getLvalue = 5 ∧
        ((⟨RCT_DEALLOC, 5, 6⟩ : RuleCode).getType ≠ RCT_DEALLOC → rc.getRvalue = 6)) :=
  ⟨⟨rfl, (C21_round_trip recordInsert [] (opAssign (opDeref (ruleVar 1)) (opRef (ruleVar 2)))
      (ruleVar 0) ⟨RCT_DEALLOC, 5, 6⟩ 0 0).2.1 ⟨RCT_DREF_VAR_ASGN_REF_VAR, 1, 2⟩ rfl []⟩,
   ⟨by decide, (C21_round_trip recordInsert [] (ruleVar 0) (ruleVar 0) ⟨RCT_DEALLOC, 5, 6⟩
      0 0).2.2.2.1 (by decide)⟩⟩

/-! ## Inline assembly in the translation of one value -/

/-- The call branch of `toRuleCode` without its test of inline assembly, whose
body is empty. -/
theorem toRuleCode_call (env : Env) (c : CallInst) :
    toRuleCode env (.CallInst c) =
      if env.isMemoryAllocation c.calledValue then
        ⟨[⟨RCT_VAR_ASGN_ALLOC, c.addr, c.addr⟩], false⟩
      else if env.isMemoryDeallocation c.calledValue then
        ⟨[], false⟩
      else if env.isMemoryCopy c.calledValue || env.isMemoryMove c.calledValue then
        ⟨[⟨RCT_DREF_VAR_ASGN_DREF_VAR, env.elimConstExpr (c.getArgOperand 0),
          env.elimConstExpr (c.getArgOperand 1)⟩], false⟩
      else
        ⟨[], false⟩ := by
  simp only [toRuleCode, ite_self, seq_empty_left, write_var_alloc, write_dref_dref]
  rfl

end PointsTo
